import Mathlib

/-!
Shallow embedding of the inventory-management backend
(`src/services/stock.service.ts`, `src/services/purchaseOrder.service.ts`,
`src/services/warehouse.service.ts`, `src/services/product.service.ts`,
`src/services/supplier.service.ts`, and the repositories they call).

The persistent store (Prisma/SQL) is modelled as an explicit `Store` value
threaded through each operation; `prisma.$transaction` blocks are modelled by
the operation returning either `.ok` with the fully-updated store or `.error`
with the thrown error and no store change (all-or-nothing).

Prisma `update` on a unique key touches exactly one row; we model it as
"update the first list entry matching the key" (`updateFirstStock`,
`updateFirstWarehouse`, `updateFirstOrder`), which coincides with the
database semantics because the schema makes the keys unique.

JavaScript numbers on the integer-valued fields are modelled as `Int`.
The two fractional computations of the reorder scan
(`Math.ceil(reorderThreshold * 0.2)` and the comparison
`quantityToOrder < reorderThreshold * 0.1`) are modelled with exact
arithmetic — `intCeilDiv (2 * t) 10` and `10 * q < t`, proved equal to the
exact rational `⌈t * (2/10)⌉` and `q < t * (1/10)` by `buffer_eq_ceil` and
`ltTenth_iff` below. The exact model agrees with the IEEE-754 doubles the
source computes: for every integer `t` with `|t| < 2^50` the doubles
`t * 0.2` and `t * 0.1` round to values whose ceiling and order against the
integers agree with the exact rationals `t/5` and `t/10` (the stored double
0.2 is exactly `0.2 * (1 + 2^-54)`, and the half-ulp tie at a power of two
rounds to even, i.e. downward to the exact value), so the exact model
coincides with the JS semantics on the entire range the application can
reach.
-/

/-- Order lifecycle states, from the Prisma `OrderStatus` enum. -/
inductive OrderStatus where
  | PENDING
  | RECEIVED
  | CANCELLED
deriving Repr, DecidableEq

/-- Rendering of `OrderStatus` used in the template-literal error messages. -/
def OrderStatus.str : OrderStatus → String
  | .PENDING => "PENDING"
  | .RECEIVED => "RECEIVED"
  | .CANCELLED => "CANCELLED"

/-- The error classes thrown by the services (`src/utils/errors.ts`):
`BadRequestError`, `NotFoundError`, and the plain `Error` thrown by
`warehouseRepository.checkCapacity`. -/
inductive Err where
  | badRequest (msg : String)
  | notFound (msg : String)
  | internal (msg : String)
deriving Repr, DecidableEq

/-- The message carried by a thrown error (`error.message` in the
reorder scan's catch block). -/
def Err.message : Err → String
  | .badRequest m => m
  | .notFound m => m
  | .internal m => m

/-- A `Warehouse` row. -/
structure Warehouse where
  id : String
  name : String
  location : String
  capacity : Int
  currentOccupancy : Int
  isActive : Bool
deriving Repr, DecidableEq

/-- A `Product` row (the fields the inventory core reads). -/
structure Product where
  id : String
  name : String
  reorderThreshold : Int
  defaultSupplierId : String
  isActive : Bool
deriving Repr, DecidableEq

/-- A `Supplier` row (the fields the inventory core reads). -/
structure Supplier where
  id : String
  name : String
  isActive : Bool
deriving Repr, DecidableEq

/-- A `WarehouseStock` row; unique on (productId, warehouseId). -/
structure StockRecord where
  productId : String
  warehouseId : String
  quantity : Int
  lastRestocked : Int
deriving Repr, DecidableEq

/-- A `PurchaseOrder` row. Ids are allocated from the store's counter. -/
structure PurchaseOrder where
  id : Nat
  productId : String
  supplierId : String
  warehouseId : String
  quantityOrdered : Int
  orderDate : Int
  expectedArrivalDate : Int
  actualArrivalDate : Option Int
  notes : Option String
  status : OrderStatus
deriving Repr, DecidableEq

/-- The persistent store plus the ambient clock (`new Date()` ↦ `now`)
and the id generator for purchase orders. -/
structure Store where
  warehouses : List Warehouse
  products : List Product
  suppliers : List Supplier
  stocks : List StockRecord
  orders : List PurchaseOrder
  now : Int
  nextOrderId : Nat
deriving Repr, DecidableEq

deriving instance DecidableEq for Except

/-- List-level lookup of a warehouse by primary key. -/
def findWarehouseL (l : List Warehouse) (id : String) : Option Warehouse :=
  l.find? (fun w => w.id == id)

/-- `prisma.warehouse.findUnique({ where: { id } })`. -/
def findWarehouse (s : Store) (id : String) : Option Warehouse :=
  findWarehouseL s.warehouses id

/-- `prisma.product.findUnique({ where: { id } })`. -/
def findProduct (s : Store) (id : String) : Option Product :=
  s.products.find? (fun p => p.id == id)

/-- `prisma.supplier.findUnique({ where: { id } })`. -/
def findSupplier (s : Store) (id : String) : Option Supplier :=
  s.suppliers.find? (fun p => p.id == id)

/-- List-level lookup of a stock row by its unique composite key. -/
def findStockL (l : List StockRecord) (pid wid : String) : Option StockRecord :=
  l.find? (fun r => r.productId == pid && r.warehouseId == wid)

/-- `warehouseStock.findUnique({ where: { productId_warehouseId } })`. -/
def findStock (s : Store) (pid wid : String) : Option StockRecord :=
  findStockL s.stocks pid wid

/-- List-level lookup of a purchase order by primary key. -/
def findOrderL (l : List PurchaseOrder) (oid : Nat) : Option PurchaseOrder :=
  l.find? (fun o => o.id == oid)

/-- `purchaseOrder.findById`. -/
def findOrder (s : Store) (oid : Nat) : Option PurchaseOrder :=
  findOrderL s.orders oid

/-- Rewrite the first list entry satisfying `p` with `f`. Prisma `update`
on a unique key touches exactly one row; since the schema keys below are
unique, "first match" is "the match". -/
def updateFirst {α : Type} (p : α → Bool) (f : α → α) : List α → List α
  | [] => []
  | x :: rest => if p x then f x :: rest else x :: updateFirst p f rest

/-- Prisma `warehouseStock.update` on the unique composite key. -/
def updateFirstStock (pid wid : String) (f : StockRecord → StockRecord)
    (l : List StockRecord) : List StockRecord :=
  updateFirst (fun r => r.productId == pid && r.warehouseId == wid) f l

/-- Prisma `warehouse.update` on the primary key. -/
def updateFirstWarehouse (wid : String) (f : Warehouse → Warehouse)
    (l : List Warehouse) : List Warehouse :=
  updateFirst (fun w => w.id == wid) f l

/-- Prisma `purchaseOrder.update` on the primary key. -/
def updateFirstOrder (oid : Nat) (f : PurchaseOrder → PurchaseOrder)
    (l : List PurchaseOrder) : List PurchaseOrder :=
  updateFirst (fun o => o.id == oid) f l

/-- `productService.validateProductExists` (`product.service.ts`). -/
def validateProductExists (s : Store) (id : String) : Except Err Product :=
  match findProduct s id with
  | none => .error (.notFound "Product not found")
  | some p => .ok p

/-- `warehouseService.validateWarehouseExists` (`warehouse.service.ts`). -/
def validateWarehouseExists (s : Store) (id : String) : Except Err Warehouse :=
  match findWarehouse s id with
  | none => .error (.notFound "Warehouse not found")
  | some w => .ok w

/-- `supplierService.validateSupplierExists` (`supplier.service.ts`). -/
def validateSupplierExists (s : Store) (id : String) : Except Err Supplier :=
  match findSupplier s id with
  | none => .error (.notFound "Supplier not found")
  | some p => .ok p

/-- `warehouseRepository.checkCapacity`: available space, throwing a plain
`Error` when the warehouse row is absent. -/
def checkCapacity (s : Store) (id : String) : Except Err Int :=
  match findWarehouse s id with
  | none => .error (.internal "Warehouse not found")
  | some w => .ok (w.capacity - w.currentOccupancy)

/-- `warehouseRepository.canAccommodate`. -/
def canAccommodate (s : Store) (id : String) (q : Int) : Except Err Bool :=
  (checkCapacity s id).map (fun a => decide (q ≤ a))

/-- `purchaseOrderRepository.hasPendingOrder`: count of PENDING orders for
the (productId, warehouseId) pair is positive. -/
def hasPendingOrder (s : Store) (pid wid : String) : Bool :=
  s.orders.any (fun o =>
    o.productId == pid && o.warehouseId == wid && o.status == OrderStatus.PENDING)

/-- Arguments of `WarehouseStockService.addStock`. -/
structure AddStockData where
  productId : String
  warehouseId : String
  quantity : Int
deriving Repr, DecidableEq

/-- Arguments of `WarehouseStockService.removeStock`. -/
structure RemoveStockData where
  productId : String
  warehouseId : String
  quantity : Int
deriving Repr, DecidableEq

/-- Arguments of `WarehouseStockService.transferStock`. -/
structure TransferStockData where
  productId : String
  fromWarehouseId : String
  toWarehouseId : String
  quantity : Int
deriving Repr, DecidableEq

/-- `WarehouseStockService.addStock` (`stock.service.ts`): validations in
source order, then the transaction (stock upsert + occupancy increment). -/
def addStock (s : Store) (d : AddStockData) : Except Err Store :=
  if d.quantity ≤ 0 then .error (.badRequest "Quantity must be greater than 0")
  else match validateProductExists s d.productId with
  | .error e => .error e
  | .ok _ =>
  match validateWarehouseExists s d.warehouseId with
  | .error e => .error e
  | .ok _ =>
  match canAccommodate s d.warehouseId d.quantity with
  | .error e => .error e
  | .ok false =>
      match checkCapacity s d.warehouseId with
      | .error e => .error e
      | .ok availableSpace =>
          .error (.badRequest
            ("Insufficient warehouse capacity. Requested: " ++ toString d.quantity ++
              ", Available: " ++ toString availableSpace))
  | .ok true =>
      let stocks' :=
        match findStock s d.productId d.warehouseId with
        | some _ =>
            updateFirstStock d.productId d.warehouseId
              (fun r => { r with quantity := r.quantity + d.quantity,
                                 lastRestocked := s.now }) s.stocks
        | none =>
            s.stocks ++ [{ productId := d.productId, warehouseId := d.warehouseId,
                           quantity := d.quantity, lastRestocked := s.now }]
      let warehouses' :=
        updateFirstWarehouse d.warehouseId
          (fun w => { w with currentOccupancy := w.currentOccupancy + d.quantity })
          s.warehouses
      .ok { s with stocks := stocks', warehouses := warehouses' }

/-- `WarehouseStockService.removeStock` (`stock.service.ts`). -/
def removeStock (s : Store) (d : RemoveStockData) : Except Err Store :=
  if d.quantity ≤ 0 then .error (.badRequest "Quantity must be greater than 0")
  else match validateProductExists s d.productId with
  | .error e => .error e
  | .ok _ =>
  match validateWarehouseExists s d.warehouseId with
  | .error e => .error e
  | .ok _ =>
  match findStock s d.productId d.warehouseId with
  | none => .error (.notFound "Stock entry not found for this product in this warehouse")
  | some existingStock =>
  if existingStock.quantity < d.quantity then
    .error (.badRequest
      ("Insufficient stock. Available: " ++ toString existingStock.quantity ++
        ", Requested: " ++ toString d.quantity))
  else
    let stocks' :=
      updateFirstStock d.productId d.warehouseId
        (fun r => { r with quantity := r.quantity - d.quantity }) s.stocks
    let warehouses' :=
      updateFirstWarehouse d.warehouseId
        (fun w => { w with currentOccupancy := w.currentOccupancy - d.quantity })
        s.warehouses
    .ok { s with stocks := stocks', warehouses := warehouses' }

/-- `WarehouseStockService.transferStock` (`stock.service.ts`): validations in
source order (quantity, product, both warehouses, same-warehouse check,
source stock, sufficiency, destination capacity), then the four-row
transaction. -/
def transferStock (s : Store) (d : TransferStockData) : Except Err Store :=
  if d.quantity ≤ 0 then .error (.badRequest "Quantity must be greater than 0")
  else match validateProductExists s d.productId with
  | .error e => .error e
  | .ok _ =>
  match validateWarehouseExists s d.fromWarehouseId with
  | .error e => .error e
  | .ok _ =>
  match validateWarehouseExists s d.toWarehouseId with
  | .error e => .error e
  | .ok _ =>
  if d.fromWarehouseId == d.toWarehouseId then
    .error (.badRequest "Source and destination warehouses must be different")
  else match findStock s d.productId d.fromWarehouseId with
  | none => .error (.notFound "Product not found in source warehouse")
  | some sourceStock =>
  if sourceStock.quantity < d.quantity then
    .error (.badRequest
      ("Insufficient stock in source warehouse. Available: " ++
        toString sourceStock.quantity ++ ", Requested: " ++ toString d.quantity))
  else match canAccommodate s d.toWarehouseId d.quantity with
  | .error e => .error e
  | .ok false =>
      match checkCapacity s d.toWarehouseId with
      | .error e => .error e
      | .ok availableSpace =>
          .error (.badRequest
            ("Insufficient capacity in destination warehouse. Requested: " ++
              toString d.quantity ++ ", Available: " ++ toString availableSpace))
  | .ok true =>
      let stocks1 :=
        updateFirstStock d.productId d.fromWarehouseId
          (fun r => { r with quantity := r.quantity - d.quantity }) s.stocks
      let warehouses1 :=
        updateFirstWarehouse d.fromWarehouseId
          (fun w => { w with currentOccupancy := w.currentOccupancy - d.quantity })
          s.warehouses
      let stocks2 :=
        match findStockL stocks1 d.productId d.toWarehouseId with
        | some _ =>
            updateFirstStock d.productId d.toWarehouseId
              (fun r => { r with quantity := r.quantity + d.quantity,
                                 lastRestocked := s.now }) stocks1
        | none =>
            stocks1 ++ [{ productId := d.productId, warehouseId := d.toWarehouseId,
                          quantity := d.quantity, lastRestocked := s.now }]
      let warehouses2 :=
        updateFirstWarehouse d.toWarehouseId
          (fun w => { w with currentOccupancy := w.currentOccupancy + d.quantity })
          warehouses1
      .ok { s with stocks := stocks2, warehouses := warehouses2 }

/-- Arguments of `PurchaseOrderService.createPurchaseOrder`. -/
structure CreatePurchaseOrderData where
  productId : String
  supplierId : String
  warehouseId : String
  quantityOrdered : Int
  orderDate : Option Int
  expectedArrivalDate : Option Int
  leadTimeDays : Option Int
  notes : Option String
deriving Repr, DecidableEq

/-- Arguments of `PurchaseOrderService.updatePurchaseOrder`. -/
structure UpdatePurchaseOrderData where
  quantityOrdered : Option Int
  expectedArrivalDate : Option Int
  notes : Option String
deriving Repr, DecidableEq

/-- `PurchaseOrderService.createPurchaseOrder` (`purchaseOrder.service.ts`).
`data.leadTimeDays || 3` is JS falsy-defaulting: an explicit 0 also
falls back to 3. Returns the new store and the created row. -/
def createPurchaseOrder (s : Store) (d : CreatePurchaseOrderData) :
    Except Err (Store × PurchaseOrder) :=
  if d.quantityOrdered ≤ 0 then
    .error (.badRequest "Quantity ordered must be greater than 0")
  else match validateProductExists s d.productId with
  | .error e => .error e
  | .ok _ =>
  match validateSupplierExists s d.supplierId with
  | .error e => .error e
  | .ok _ =>
  match validateWarehouseExists s d.warehouseId with
  | .error e => .error e
  | .ok _ =>
  match canAccommodate s d.warehouseId d.quantityOrdered with
  | .error e => .error e
  | .ok false =>
      match checkCapacity s d.warehouseId with
      | .error e => .error e
      | .ok availableSpace =>
          .error (.badRequest
            ("Insufficient warehouse capacity. Requested: " ++ toString d.quantityOrdered ++
              ", Available: " ++ toString availableSpace))
  | .ok true =>
      let orderDate := match d.orderDate with
        | some t => t
        | none => s.now
      let leadTimeDays := match d.leadTimeDays with
        | none => 3
        | some t => if t == 0 then 3 else t
      let expectedArrivalDate := match d.expectedArrivalDate with
        | some t => t
        | none => orderDate + leadTimeDays
      let po : PurchaseOrder :=
        { id := s.nextOrderId, productId := d.productId, supplierId := d.supplierId,
          warehouseId := d.warehouseId, quantityOrdered := d.quantityOrdered,
          orderDate := orderDate, expectedArrivalDate := expectedArrivalDate,
          actualArrivalDate := none, notes := d.notes, status := .PENDING }
      .ok ({ s with orders := s.orders ++ [po], nextOrderId := s.nextOrderId + 1 }, po)

/-- `PurchaseOrderService.getPurchaseOrderById`. -/
def getPurchaseOrderById (s : Store) (oid : Nat) : Except Err PurchaseOrder :=
  match findOrder s oid with
  | none => .error (.notFound "Purchase order not found")
  | some o => .ok o

/-- `PurchaseOrderService.updatePurchaseOrder`. -/
def updatePurchaseOrder (s : Store) (oid : Nat) (d : UpdatePurchaseOrderData) :
    Except Err Store :=
  match getPurchaseOrderById s oid with
  | .error e => .error e
  | .ok order =>
  if order.status ≠ .PENDING then
    .error (.badRequest
      ("Cannot update purchase order with status \"" ++ order.status.str ++
        "\". Only PENDING orders can be updated."))
  else
    let checkQty : Except Err Unit :=
      match d.quantityOrdered with
      | none => .ok ()
      | some q =>
          if q ≤ 0 then .error (.badRequest "Quantity ordered must be greater than 0")
          else
            let difference := q - order.quantityOrdered
            if difference > 0 then
              match canAccommodate s order.warehouseId difference with
              | .error e => .error e
              | .ok false =>
                  match checkCapacity s order.warehouseId with
                  | .error e => .error e
                  | .ok availableSpace =>
                      .error (.badRequest
                        ("Insufficient warehouse capacity for additional " ++
                          toString difference ++ " units. Available: " ++
                          toString availableSpace))
              | .ok true => .ok ()
            else .ok ()
    match checkQty with
    | .error e => .error e
    | .ok _ =>
        let applyFields := fun (o : PurchaseOrder) =>
          let o := match d.quantityOrdered with
            | some q => { o with quantityOrdered := q }
            | none => o
          let o := match d.expectedArrivalDate with
            | some t => { o with expectedArrivalDate := t }
            | none => o
          match d.notes with
          | some n => { o with notes := some n }
          | none => o
        .ok { s with orders := updateFirstOrder oid applyFields s.orders }

/-- `PurchaseOrderService.cancelPurchaseOrder`. -/
def cancelPurchaseOrder (s : Store) (oid : Nat) : Except Err Store :=
  match getPurchaseOrderById s oid with
  | .error e => .error e
  | .ok order =>
  if order.status ≠ .PENDING then
    .error (.badRequest
      ("Cannot cancel purchase order with status \"" ++ order.status.str ++
        "\". Only PENDING orders can be cancelled."))
  else
    .ok { s with orders :=
            updateFirstOrder oid (fun o => { o with status := .CANCELLED }) s.orders }

/-- `PurchaseOrderService.receivePurchaseOrder`: after the PENDING guard,
one transaction sets status/arrival date, upserts the stock row by
`quantityOrdered`, and increments the warehouse occupancy. No capacity
check is performed here. -/
def receivePurchaseOrder (s : Store) (oid : Nat) : Except Err Store :=
  match getPurchaseOrderById s oid with
  | .error e => .error e
  | .ok order =>
  if order.status ≠ .PENDING then
    .error (.badRequest
      ("Cannot receive purchase order with status \"" ++ order.status.str ++
        "\". Only PENDING orders can be received."))
  else
    let orders' := updateFirstOrder oid
      (fun o => { o with status := .RECEIVED, actualArrivalDate := some s.now }) s.orders
    let stocks' :=
      match findStock s order.productId order.warehouseId with
      | some _ =>
          updateFirstStock order.productId order.warehouseId
            (fun r => { r with quantity := r.quantity + order.quantityOrdered,
                               lastRestocked := s.now }) s.stocks
      | none =>
          s.stocks ++ [{ productId := order.productId, warehouseId := order.warehouseId,
                         quantity := order.quantityOrdered, lastRestocked := s.now }]
    let warehouses' :=
      updateFirstWarehouse order.warehouseId
        (fun w => { w with currentOccupancy := w.currentOccupancy + order.quantityOrdered })
        s.warehouses
    .ok { s with orders := orders', stocks := stocks', warehouses := warehouses' }

/-- One joined row of `stockRepository.findStocksBelowThreshold`. -/
structure LowStockRow where
  stock : StockRecord
  product : Product
  defaultSupplier : Supplier
  warehouse : Warehouse
deriving Repr, DecidableEq

/-- `stockRepository.findStocksBelowThreshold` (`stock.repository.ts`):
all stock rows joined with product, default supplier and warehouse,
kept when below threshold and all three references are active.
(The Prisma joins always resolve because of the schema's foreign keys;
rows with a dangling reference cannot exist and are dropped here.) -/
def findStocksBelowThreshold (s : Store) : List LowStockRow :=
  s.stocks.filterMap (fun r =>
    match findProduct s r.productId with
    | none => none
    | some p =>
    match findSupplier s p.defaultSupplierId with
    | none => none
    | some sup =>
    match findWarehouse s r.warehouseId with
    | none => none
    | some w =>
      if r.quantity < p.reorderThreshold && p.isActive && w.isActive && sup.isActive
      then some { stock := r, product := p, defaultSupplier := sup, warehouse := w }
      else none)

/-- One element of the reorder scan's `orders` result list. -/
structure OrderInfo where
  productId : String
  productName : String
  warehouseId : String
  warehouseName : String
  currentStock : Int
  threshold : Int
  quantityOrdered : Int
  supplierId : String
  supplierName : String
  orderId : Nat
deriving Repr, DecidableEq

/-- One element of the reorder scan's `skipped` result list. -/
structure SkippedItem where
  productId : String
  productName : String
  warehouseId : String
  reason : String
deriving Repr, DecidableEq

/-- Result shape of `WarehouseStockService.checkAndReorder`. -/
structure ReorderResult where
  ordersCreated : Nat
  orders : List OrderInfo
  skipped : List SkippedItem
deriving Repr, DecidableEq

/-- Exact rational ceiling `⌈a / b⌉` of two integers with `0 < b`,
computed with euclidean division so that it evaluates by kernel
reduction. `Math.ceil(t * 0.2)` is embedded as `intCeilDiv (2 * t) 10`;
the lemma `intCeilDiv_eq_ceil` below proves this equal to the exact
rational `⌈(t : ℚ) * (2 / 10)⌉`. -/
def intCeilDiv (a b : Int) : Int := -((-a) / b)

/-- The body of the reorder scan's per-item loop (`checkAndReorder`,
`stock.service.ts`): pending-order skip, quantity policy
(threshold + 20% buffer), full-capacity skip, clamp to available capacity,
10%-of-threshold minimum, then order creation; a thrown error becomes a
skip entry carrying `error.message`. The JS comparison
`quantityToOrder < reorderThreshold * 0.1` is embedded cross-multiplied as
`10 * quantityToOrder < reorderThreshold` (see `ltTenth_iff` below for the
equality with the exact rational comparison). -/
def processLowStock (s : Store) (row : LowStockRow) :
    Store × (OrderInfo ⊕ SkippedItem) :=
  let product := row.product
  let warehouse := row.warehouse
  if hasPendingOrder s product.id warehouse.id then
    (s, Sum.inr { productId := product.id, productName := product.name,
                  warehouseId := warehouse.id,
                  reason := "Pending order already exists" })
  else
    let buffer : Int := intCeilDiv (2 * product.reorderThreshold) 10
    let targetQuantity := product.reorderThreshold + buffer
    let quantityToOrder0 := targetQuantity - row.stock.quantity
    let availableCapacity := warehouse.capacity - warehouse.currentOccupancy
    if availableCapacity ≤ 0 then
      (s, Sum.inr { productId := product.id, productName := product.name,
                    warehouseId := warehouse.id,
                    reason := "Warehouse at full capacity" })
    else
      let quantityToOrder :=
        if quantityToOrder0 > availableCapacity then availableCapacity
        else quantityToOrder0
      if 10 * quantityToOrder < product.reorderThreshold then
        (s, Sum.inr { productId := product.id, productName := product.name,
                      warehouseId := warehouse.id,
                      reason := "Insufficient capacity (only " ++
                        toString availableCapacity ++ " available)" })
      else
        match createPurchaseOrder s
          { productId := product.id, supplierId := product.defaultSupplierId,
            warehouseId := warehouse.id, quantityOrdered := quantityToOrder,
            orderDate := some s.now, expectedArrivalDate := some (s.now + 3),
            leadTimeDays := none,
            notes := some "Auto-generated order - stock below threshold" } with
        | .ok (s', po) =>
            (s', Sum.inl { productId := product.id, productName := product.name,
                           warehouseId := warehouse.id, warehouseName := warehouse.name,
                           currentStock := row.stock.quantity,
                           threshold := product.reorderThreshold,
                           quantityOrdered := quantityToOrder,
                           supplierId := product.defaultSupplierId,
                           supplierName := row.defaultSupplier.name,
                           orderId := po.id })
        | .error e =>
            (s, Sum.inr { productId := product.id, productName := product.name,
                          warehouseId := warehouse.id, reason := e.message })

/-- The scan's loop over the low-stock rows, threading the store and
accumulating the `orders` and `skipped` lists in processing order. -/
def checkAndReorderLoop (s : Store) :
    List LowStockRow → Store × List OrderInfo × List SkippedItem
  | [] => (s, [], [])
  | row :: rest =>
      match processLowStock s row with
      | (s', Sum.inl o) =>
          let (s'', os, ks) := checkAndReorderLoop s' rest
          (s'', o :: os, ks)
      | (s', Sum.inr k) =>
          let (s'', os, ks) := checkAndReorderLoop s' rest
          (s'', os, k :: ks)

/-- `WarehouseStockService.checkAndReorder`. -/
def checkAndReorder (s : Store) : Store × ReorderResult :=
  let rows := findStocksBelowThreshold s
  let (s', os, ks) := checkAndReorderLoop s rows
  (s', { ordersCreated := os.length, orders := os, skipped := ks })

/-- The operations of the spec's "any sequence of committed operations". -/
inductive Op where
  | add (d : AddStockData)
  | remove (d : RemoveStockData)
  | transfer (d : TransferStockData)
  | poCreate (d : CreatePurchaseOrderData)
  | poUpdate (oid : Nat) (d : UpdatePurchaseOrderData)
  | poCancel (oid : Nat)
  | poReceive (oid : Nat)
  | reorderScan
deriving Repr, DecidableEq

/-- Dispatch one operation against the store. -/
def applyOp (s : Store) : Op → Except Err Store
  | .add d => addStock s d
  | .remove d => removeStock s d
  | .transfer d => transferStock s d
  | .poCreate d => (createPurchaseOrder s d).map Prod.fst
  | .poUpdate oid d => updatePurchaseOrder s oid d
  | .poCancel oid => cancelPurchaseOrder s oid
  | .poReceive oid => receivePurchaseOrder s oid
  | .reorderScan => .ok (checkAndReorder s).1

/-- The committed state after an operation: a thrown error rolls the
transaction back, leaving the store unchanged. -/
def applyCommitted (s : Store) (op : Op) : Store :=
  match applyOp s op with
  | .ok s' => s'
  | .error _ => s

/-- Observable: quantity of the stock row for a pair (0 when absent). -/
def stockQty (s : Store) (pid wid : String) : Int :=
  match findStock s pid wid with
  | some r => r.quantity
  | none => 0

/-- Observable: occupancy of a warehouse (0 when absent). -/
def whOcc (s : Store) (wid : String) : Int :=
  match findWarehouse s wid with
  | some w => w.currentOccupancy
  | none => 0

/-- `intCeilDiv` computes the exact rational ceiling. -/
theorem intCeilDiv_eq_ceil (a : Int) (b : Nat) :
    intCeilDiv a b = Int.ceil ((a : ℚ) / (b : ℚ)) := by
  unfold intCeilDiv
  have h : ((a : ℚ) / (b : ℚ)) = -(((-a : Int) : ℚ) / (b : ℚ)) := by push_cast; ring
  rw [h, Int.ceil_neg, Rat.floor_intCast_div_natCast]

/-- The scan's buffer `intCeilDiv (2 * t) 10` is exactly
`⌈t * 0.2⌉` in exact rational arithmetic (the faithful reading of
`Math.ceil(reorderThreshold * 0.2)`). -/
theorem buffer_eq_ceil (t : Int) :
    intCeilDiv (2 * t) 10 = Int.ceil ((t : ℚ) * (2 / 10)) := by
  have h := intCeilDiv_eq_ceil (2 * t) 10
  norm_num at h
  rw [h]
  congr 1
  ring

/-- The scan's minimum-quantity test `10 * q < t` is exactly the rational
comparison `q < t * 0.1` (the faithful reading of
`quantityToOrder < reorderThreshold * 0.1`). -/
theorem ltTenth_iff (q t : Int) :
    10 * q < t ↔ (q : ℚ) < (t : ℚ) * (1 / 10) := by
  rw [mul_one_div, lt_div_iff₀ (by norm_num : (0 : ℚ) < 10)]
  constructor
  · intro h
    have h2 : ((10 * q : Int) : ℚ) < (t : ℚ) := by exact_mod_cast h
    push_cast at h2
    linarith
  · intro h
    have : ((10 * q : Int) : ℚ) < (t : ℚ) := by push_cast; linarith
    exact_mod_cast this

theorem updateFirst_eq_of_none {α : Type} {p : α → Bool} {f : α → α} {l : List α}
    (h : l.find? p = none) : updateFirst p f l = l := by
  induction l with
  | nil => rfl
  | cons x rest ih =>
      cases hc : p x with
      | true => rw [List.find?_cons_of_pos _ hc] at h; exact absurd h (by simp)
      | false =>
          rw [List.find?_cons_of_neg _ (by simp [hc])] at h
          unfold updateFirst
          rw [if_neg (by simp [hc]), ih h]

theorem find?_updateFirst_self {α : Type} {p : α → Bool} {f : α → α} {l : List α} {x0 : α}
    (h : l.find? p = some x0) (hf : p (f x0) = true) :
    (updateFirst p f l).find? p = some (f x0) := by
  induction l with
  | nil => simp [List.find?] at h
  | cons x rest ih =>
      cases hc : p x with
      | true =>
          rw [List.find?_cons_of_pos _ hc] at h
          injection h with h
          subst h
          unfold updateFirst
          rw [if_pos hc]
          exact List.find?_cons_of_pos _ hf
      | false =>
          rw [List.find?_cons_of_neg _ (by simp [hc])] at h
          unfold updateFirst
          rw [if_neg (by simp [hc])]
          rw [List.find?_cons_of_neg _ (by simp [hc])]
          exact ih h

theorem find?_updateFirst_other {α : Type} {p q : α → Bool} {f : α → α} {l : List α}
    (hpq : ∀ x, p x = true → q x = false) (hqf : ∀ x, q (f x) = q x) :
    (updateFirst p f l).find? q = l.find? q := by
  induction l with
  | nil => rfl
  | cons x rest ih =>
      cases hc : p x with
      | true =>
          unfold updateFirst
          rw [if_pos hc]
          have hqx : q x = false := hpq x hc
          rw [List.find?_cons_of_neg _ (by simp [hqf x, hqx]),
              List.find?_cons_of_neg _ (by simp [hqx])]
      | false =>
          unfold updateFirst
          rw [if_neg (by simp [hc])]
          cases hq : q x with
          | true =>
              rw [List.find?_cons_of_pos _ hq, List.find?_cons_of_pos _ hq]
          | false =>
              rw [List.find?_cons_of_neg _ (by simp [hq]),
                  List.find?_cons_of_neg _ (by simp [hq])]
              exact ih

theorem mem_updateFirst {α : Type} {p : α → Bool} {f : α → α} {l : List α} {x : α}
    (hx : x ∈ updateFirst p f l) :
    x ∈ l ∨ ∃ x0, l.find? p = some x0 ∧ x = f x0 := by
  induction l with
  | nil => simp [updateFirst] at hx
  | cons y rest ih =>
      cases hc : p y with
      | true =>
          unfold updateFirst at hx
          rw [if_pos hc] at hx
          rcases List.mem_cons.1 hx with h | h
          · exact Or.inr ⟨y, List.find?_cons_of_pos _ hc, h⟩
          · exact Or.inl (List.mem_cons_of_mem _ h)
      | false =>
          unfold updateFirst at hx
          rw [if_neg (by simp [hc])] at hx
          rcases List.mem_cons.1 hx with h | h
          · exact Or.inl (h ▸ List.mem_cons_self y rest)
          · rcases ih h with h2 | ⟨x0, hfind, hfx⟩
            · exact Or.inl (List.mem_cons_of_mem _ h2)
            · exact Or.inr ⟨x0, by rw [List.find?_cons_of_neg _ (by simp [hc])]; exact hfind, hfx⟩

theorem mem_updateFirst_uniq {α : Type} {p : α → Bool} {f : α → α} {l : List α} {x : α}
    (hnd : l.Pairwise (fun a b => p a = true → p b = false))
    (hx : x ∈ updateFirst p f l) :
    (x ∈ l ∧ p x = false) ∨ ∃ x0, l.find? p = some x0 ∧ x = f x0 := by
  induction l with
  | nil => simp [updateFirst] at hx
  | cons y rest ih =>
      have hndr := (List.pairwise_cons.1 hnd).2
      have hhead := (List.pairwise_cons.1 hnd).1
      cases hc : p y with
      | true =>
          unfold updateFirst at hx
          rw [if_pos hc] at hx
          rcases List.mem_cons.1 hx with h | h
          · exact Or.inr ⟨y, List.find?_cons_of_pos _ hc, h⟩
          · exact Or.inl ⟨List.mem_cons_of_mem _ h, hhead x h hc⟩
      | false =>
          unfold updateFirst at hx
          rw [if_neg (by simp [hc])] at hx
          rcases List.mem_cons.1 hx with h | h
          · subst h
            exact Or.inl ⟨List.mem_cons_self x rest, hc⟩
          · rcases ih hndr h with ⟨h2, h3⟩ | ⟨x0, hfind, hfx⟩
            · exact Or.inl ⟨List.mem_cons_of_mem _ h2, h3⟩
            · exact Or.inr ⟨x0, by rw [List.find?_cons_of_neg _ (by simp [hc])]; exact hfind, hfx⟩

theorem updateFirst_map_key {α β : Type} {p : α → Bool} {f : α → α} (k : α → β) {l : List α}
    (hk : ∀ x, p x = true → k (f x) = k x) :
    (updateFirst p f l).map k = l.map k := by
  induction l with
  | nil => rfl
  | cons y rest ih =>
      cases hc : p y with
      | true =>
          unfold updateFirst
          rw [if_pos hc]
          simp [hk y hc]
      | false =>
          unfold updateFirst
          rw [if_neg (by simp [hc])]
          simp [ih]

/-- Reduction of `findStockL` at a matching head. -/
theorem findStockL_cons_pos {r : StockRecord} {rest : List StockRecord} {pid wid : String}
    (hc : (r.productId == pid && r.warehouseId == wid) = true) :
    findStockL (r :: rest) pid wid = some r := by
  unfold findStockL
  have hc2 : (fun x : StockRecord => x.productId == pid && x.warehouseId == wid) r = true := hc
  exact List.find?_cons_of_pos rest hc2

/-- Reduction of `findStockL` at a non-matching head. -/
theorem findStockL_cons_neg {r : StockRecord} {rest : List StockRecord} {pid wid : String}
    (hc : (r.productId == pid && r.warehouseId == wid) = false) :
    findStockL (r :: rest) pid wid = findStockL rest pid wid := by
  unfold findStockL
  have hc2 : ¬ (fun x : StockRecord => x.productId == pid && x.warehouseId == wid) r = true := by
    simp [hc]
  exact List.find?_cons_of_neg rest hc2

/-- Reduction of `findWarehouseL` at a matching head. -/
theorem findWarehouseL_cons_pos {w : Warehouse} {rest : List Warehouse} {wid : String}
    (hc : (w.id == wid) = true) :
    findWarehouseL (w :: rest) wid = some w := by
  unfold findWarehouseL
  have hc2 : (fun x : Warehouse => x.id == wid) w = true := hc
  exact List.find?_cons_of_pos rest hc2

/-- Reduction of `findWarehouseL` at a non-matching head. -/
theorem findWarehouseL_cons_neg {w : Warehouse} {rest : List Warehouse} {wid : String}
    (hc : (w.id == wid) = false) :
    findWarehouseL (w :: rest) wid = findWarehouseL rest wid := by
  unfold findWarehouseL
  have hc2 : ¬ (fun x : Warehouse => x.id == wid) w = true := by simp [hc]
  exact List.find?_cons_of_neg rest hc2

/-- Reduction of `findOrderL` at a matching head. -/
theorem findOrderL_cons_pos {o : PurchaseOrder} {rest : List PurchaseOrder} {oid : Nat}
    (hc : (o.id == oid) = true) :
    findOrderL (o :: rest) oid = some o := by
  unfold findOrderL
  have hc2 : (fun x : PurchaseOrder => x.id == oid) o = true := hc
  exact List.find?_cons_of_pos rest hc2

/-- Reduction of `findOrderL` at a non-matching head. -/
theorem findOrderL_cons_neg {o : PurchaseOrder} {rest : List PurchaseOrder} {oid : Nat}
    (hc : (o.id == oid) = false) :
    findOrderL (o :: rest) oid = findOrderL rest oid := by
  unfold findOrderL
  have hc2 : ¬ (fun x : PurchaseOrder => x.id == oid) o = true := by simp [hc]
  exact List.find?_cons_of_neg rest hc2

/-- Sum of stock quantities held in warehouse `wid`. -/
def stockSum (l : List StockRecord) (wid : String) : Int :=
  match l with
  | [] => 0
  | r :: rest => (if r.warehouseId == wid then r.quantity else 0) + stockSum rest wid

theorem stockSum_append (l : List StockRecord) (x : StockRecord) (w : String) :
    stockSum (l ++ [x]) w = stockSum l w + (if x.warehouseId == w then x.quantity else 0) := by
  induction l with
  | nil => simp [stockSum]
  | cons r rest ih => simp [stockSum, ih]; ring

theorem stockSum_updateFirst {pid wid : String} {f : StockRecord → StockRecord}
    {l : List StockRecord} (w : String)
    (hf : ∀ r, (f r).warehouseId = r.warehouseId) :
    stockSum (updateFirstStock pid wid f l) w =
      stockSum l w +
        (match findStockL l pid wid with
         | some r0 => (if r0.warehouseId == w then (f r0).quantity - r0.quantity else 0)
         | none => 0) := by
  induction l with
  | nil => simp [stockSum, updateFirstStock, updateFirst, findStockL]
  | cons r rest ih =>
      by_cases hc : (r.productId == pid && r.warehouseId == wid) = true
      · unfold updateFirstStock updateFirst
        rw [if_pos hc]
        rw [findStockL_cons_pos hc]
        simp only [stockSum, hf r]
        cases hw : (r.warehouseId == w) <;> simp <;> ring
      · unfold updateFirstStock updateFirst
        rw [if_neg (by simp_all)]
        rw [findStockL_cons_neg (by simp_all)]
        simp only [stockSum]
        unfold updateFirstStock at ih
        rw [ih]
        ring

theorem stockSum_nonneg {l : List StockRecord} {wid : String}
    (hpos : ∀ r ∈ l, 0 ≤ r.quantity) : 0 ≤ stockSum l wid := by
  induction l with
  | nil => simp [stockSum]
  | cons r rest ih =>
      have h1 : 0 ≤ r.quantity := hpos r (by simp)
      have h2 : 0 ≤ stockSum rest wid :=
        ih (fun x hx => hpos x (List.mem_cons_of_mem _ hx))
      simp only [stockSum]
      cases hw : (r.warehouseId == wid) <;> simp <;> linarith

theorem le_stockSum_of_mem {l : List StockRecord} {r0 : StockRecord} {wid : String}
    (h : r0 ∈ l) (hw : r0.warehouseId = wid)
    (hpos : ∀ r ∈ l, 0 ≤ r.quantity) : r0.quantity ≤ stockSum l wid := by
  induction h with
  | head rest =>
      have h2 : 0 ≤ stockSum rest wid :=
        stockSum_nonneg (fun x hx => hpos x (List.mem_cons_of_mem _ hx))
      simp only [stockSum]
      rw [if_pos (by simp [hw])]
      linarith
  | tail y hmem ih =>
      have h2 := ih (fun x hx => hpos x (List.mem_cons_of_mem _ hx))
      have h0 : (0 : Int) ≤ if y.warehouseId == wid then y.quantity else 0 := by
        cases hc : (y.warehouseId == wid) <;> simp [hpos y (by simp)]
      simp only [stockSum]
      linarith

/-! ### Inversion lemmas: what a successful operation implies -/

theorem validateProductExists_ok {s : Store} {id : String} {p : Product}
    (h : validateProductExists s id = .ok p) : findProduct s id = some p := by
  unfold validateProductExists at h
  cases hf : findProduct s id <;> rw [hf] at h <;> simp_all

theorem validateWarehouseExists_ok {s : Store} {id : String} {w : Warehouse}
    (h : validateWarehouseExists s id = .ok w) : findWarehouse s id = some w := by
  unfold validateWarehouseExists at h
  cases hf : findWarehouse s id <;> rw [hf] at h <;> simp_all

theorem validateSupplierExists_ok {s : Store} {id : String} {p : Supplier}
    (h : validateSupplierExists s id = .ok p) : findSupplier s id = some p := by
  unfold validateSupplierExists at h
  cases hf : findSupplier s id <;> rw [hf] at h <;> simp_all

theorem canAccommodate_ok {s : Store} {id : String} {q : Int} {b : Bool}
    (h : canAccommodate s id q = .ok b) :
    ∃ w, findWarehouseL s.warehouses id = some w ∧
      b = decide (q ≤ w.capacity - w.currentOccupancy) := by
  unfold canAccommodate checkCapacity findWarehouse at h
  cases hf : findWarehouseL s.warehouses id <;> rw [hf] at h
  · simp [Except.map] at h
  · refine ⟨_, rfl, ?_⟩
    simp [Except.map] at h
    exact h.symm

/-- Successful `addStock` run: the guards that passed and the resulting store. -/
theorem addStock_ok {s : Store} {d : AddStockData} {s' : Store}
    (h : addStock s d = .ok s') :
    0 < d.quantity ∧
    (∃ p, findProduct s d.productId = some p) ∧
    (∃ w0, findWarehouseL s.warehouses d.warehouseId = some w0 ∧
      d.quantity ≤ w0.capacity - w0.currentOccupancy) ∧
    s' = { s with
      stocks :=
        match findStockL s.stocks d.productId d.warehouseId with
        | some _ =>
            updateFirstStock d.productId d.warehouseId
              (fun r => { r with quantity := r.quantity + d.quantity,
                                 lastRestocked := s.now }) s.stocks
        | none =>
            s.stocks ++ [{ productId := d.productId, warehouseId := d.warehouseId,
                           quantity := d.quantity, lastRestocked := s.now }],
      warehouses :=
        updateFirstWarehouse d.warehouseId
          (fun w => { w with currentOccupancy := w.currentOccupancy + d.quantity })
          s.warehouses } := by
  unfold addStock at h
  by_cases hq : d.quantity ≤ 0
  · rw [if_pos hq] at h; simp at h
  rw [if_neg hq] at h
  cases hvp : validateProductExists s d.productId with
  | error e => rw [hvp] at h; simp at h
  | ok p =>
  rw [hvp] at h
  cases hvw : validateWarehouseExists s d.warehouseId with
  | error e => rw [hvw] at h; simp at h
  | ok w =>
  rw [hvw] at h
  cases hca : canAccommodate s d.warehouseId d.quantity with
  | error e => rw [hca] at h; simp at h
  | ok b =>
  rw [hca] at h
  cases b with
  | false =>
      cases hcc : checkCapacity s d.warehouseId <;> rw [hcc] at h <;> simp at h
  | true =>
      simp only [] at h
      obtain ⟨w0, hw0, hb⟩ := canAccommodate_ok hca
      refine ⟨not_le.mp hq, ⟨p, validateProductExists_ok hvp⟩, ⟨w0, hw0, ?_⟩, ?_⟩
      · have := hb.symm
        simpa using this
      · have h2 := h
        simp at h2
        exact h2.symm

/-- Successful `removeStock` run. -/
theorem removeStock_ok {s : Store} {d : RemoveStockData} {s' : Store}
    (h : removeStock s d = .ok s') :
    0 < d.quantity ∧
    (∃ p, findProduct s d.productId = some p) ∧
    (∃ w, findWarehouse s d.warehouseId = some w) ∧
    (∃ r0, findStockL s.stocks d.productId d.warehouseId = some r0 ∧
       d.quantity ≤ r0.quantity) ∧
    s' = { s with
      stocks :=
        updateFirstStock d.productId d.warehouseId
          (fun r => { r with quantity := r.quantity - d.quantity }) s.stocks,
      warehouses :=
        updateFirstWarehouse d.warehouseId
          (fun w => { w with currentOccupancy := w.currentOccupancy - d.quantity })
          s.warehouses } := by
  unfold removeStock at h
  by_cases hq : d.quantity ≤ 0
  · rw [if_pos hq] at h; simp at h
  rw [if_neg hq] at h
  cases hvp : validateProductExists s d.productId with
  | error e => rw [hvp] at h; simp at h
  | ok p =>
  rw [hvp] at h
  cases hvw : validateWarehouseExists s d.warehouseId with
  | error e => rw [hvw] at h; simp at h
  | ok w =>
  rw [hvw] at h
  cases hfs : findStock s d.productId d.warehouseId with
  | none => rw [hfs] at h; simp at h
  | some r0 =>
  rw [hfs] at h
  dsimp only at h
  by_cases hlt : r0.quantity < d.quantity
  · rw [if_pos hlt] at h; simp at h
  rw [if_neg hlt] at h
  simp at h
  refine ⟨not_le.mp hq, ⟨p, validateProductExists_ok hvp⟩,
    ⟨w, validateWarehouseExists_ok hvw⟩, ⟨r0, hfs, not_lt.mp hlt⟩, h.symm⟩

/-- Successful `transferStock` run. -/
theorem transferStock_ok {s : Store} {d : TransferStockData} {s' : Store}
    (h : transferStock s d = .ok s') :
    0 < d.quantity ∧
    (∃ p, findProduct s d.productId = some p) ∧
    (∃ wf, findWarehouse s d.fromWarehouseId = some wf) ∧
    d.fromWarehouseId ≠ d.toWarehouseId ∧
    (∃ r0, findStockL s.stocks d.productId d.fromWarehouseId = some r0 ∧
       d.quantity ≤ r0.quantity) ∧
    (∃ wt, findWarehouseL s.warehouses d.toWarehouseId = some wt ∧
       d.quantity ≤ wt.capacity - wt.currentOccupancy) ∧
    s' = { s with
      stocks :=
        match findStockL
            (updateFirstStock d.productId d.fromWarehouseId
              (fun r => { r with quantity := r.quantity - d.quantity }) s.stocks)
            d.productId d.toWarehouseId with
        | some _ =>
            updateFirstStock d.productId d.toWarehouseId
              (fun r => { r with quantity := r.quantity + d.quantity,
                                 lastRestocked := s.now })
              (updateFirstStock d.productId d.fromWarehouseId
                (fun r => { r with quantity := r.quantity - d.quantity }) s.stocks)
        | none =>
            (updateFirstStock d.productId d.fromWarehouseId
              (fun r => { r with quantity := r.quantity - d.quantity }) s.stocks) ++
              [{ productId := d.productId, warehouseId := d.toWarehouseId,
                 quantity := d.quantity, lastRestocked := s.now }],
      warehouses :=
        updateFirstWarehouse d.toWarehouseId
          (fun w => { w with currentOccupancy := w.currentOccupancy + d.quantity })
          (updateFirstWarehouse d.fromWarehouseId
            (fun w => { w with currentOccupancy := w.currentOccupancy - d.quantity })
            s.warehouses) } := by
  unfold transferStock at h
  by_cases hq : d.quantity ≤ 0
  · rw [if_pos hq] at h; simp at h
  rw [if_neg hq] at h
  cases hvp : validateProductExists s d.productId with
  | error e => rw [hvp] at h; simp at h
  | ok p =>
  rw [hvp] at h
  cases hvf : validateWarehouseExists s d.fromWarehouseId with
  | error e => rw [hvf] at h; simp at h
  | ok wf =>
  rw [hvf] at h
  cases hvt : validateWarehouseExists s d.toWarehouseId with
  | error e => rw [hvt] at h; simp at h
  | ok wt0 =>
  rw [hvt] at h
  by_cases hsame : (d.fromWarehouseId == d.toWarehouseId) = true
  · rw [if_pos hsame] at h; simp at h
  rw [if_neg hsame] at h
  cases hfs : findStock s d.productId d.fromWarehouseId with
  | none => rw [hfs] at h; simp at h
  | some r0 =>
  rw [hfs] at h
  dsimp only at h
  by_cases hlt : r0.quantity < d.quantity
  · rw [if_pos hlt] at h; simp at h
  rw [if_neg hlt] at h
  cases hca : canAccommodate s d.toWarehouseId d.quantity with
  | error e => rw [hca] at h; simp at h
  | ok b =>
  rw [hca] at h
  cases b with
  | false =>
      cases hcc : checkCapacity s d.toWarehouseId <;> rw [hcc] at h <;> simp at h
  | true =>
      obtain ⟨wt, hwt, hb⟩ := canAccommodate_ok hca
      simp at h
      refine ⟨not_le.mp hq, ⟨p, validateProductExists_ok hvp⟩,
        ⟨wf, validateWarehouseExists_ok hvf⟩, by simpa using hsame,
        ⟨r0, hfs, not_lt.mp hlt⟩, ⟨wt, hwt, by simpa using hb.symm⟩, h.symm⟩

theorem getPurchaseOrderById_ok {s : Store} {oid : Nat} {o : PurchaseOrder}
    (h : getPurchaseOrderById s oid = .ok o) : findOrderL s.orders oid = some o := by
  unfold getPurchaseOrderById findOrder at h
  cases hf : findOrderL s.orders oid <;> rw [hf] at h <;> simp_all

/-- Successful `createPurchaseOrder` run. -/
theorem createPurchaseOrder_ok {s : Store} {d : CreatePurchaseOrderData}
    {s' : Store} {po : PurchaseOrder}
    (h : createPurchaseOrder s d = .ok (s', po)) :
    0 < d.quantityOrdered ∧
    (∃ p, findProduct s d.productId = some p) ∧
    (∃ sup, findSupplier s d.supplierId = some sup) ∧
    (∃ w0, findWarehouseL s.warehouses d.warehouseId = some w0 ∧
       d.quantityOrdered ≤ w0.capacity - w0.currentOccupancy) ∧
    po.id = s.nextOrderId ∧ po.productId = d.productId ∧
    po.supplierId = d.supplierId ∧ po.warehouseId = d.warehouseId ∧
    po.quantityOrdered = d.quantityOrdered ∧ po.status = .PENDING ∧
    s' = { s with orders := s.orders ++ [po], nextOrderId := s.nextOrderId + 1 } := by
  unfold createPurchaseOrder at h
  by_cases hq : d.quantityOrdered ≤ 0
  · rw [if_pos hq] at h; simp at h
  rw [if_neg hq] at h
  cases hvp : validateProductExists s d.productId with
  | error e => rw [hvp] at h; simp at h
  | ok p =>
  rw [hvp] at h
  cases hvs : validateSupplierExists s d.supplierId with
  | error e => rw [hvs] at h; simp at h
  | ok sup =>
  rw [hvs] at h
  cases hvw : validateWarehouseExists s d.warehouseId with
  | error e => rw [hvw] at h; simp at h
  | ok w =>
  rw [hvw] at h
  cases hca : canAccommodate s d.warehouseId d.quantityOrdered with
  | error e => rw [hca] at h; simp at h
  | ok b =>
  rw [hca] at h
  cases b with
  | false =>
      cases hcc : checkCapacity s d.warehouseId <;> rw [hcc] at h <;> simp at h
  | true =>
      obtain ⟨w0, hw0, hb⟩ := canAccommodate_ok hca
      dsimp only at h
      rw [Except.ok.injEq, Prod.mk.injEq] at h
      obtain ⟨hs', hpo⟩ := h
      refine ⟨not_le.mp hq, ⟨p, validateProductExists_ok hvp⟩,
        ⟨sup, validateSupplierExists_ok hvs⟩, ⟨w0, hw0, by simpa using hb.symm⟩,
        ?_, ?_, ?_, ?_, ?_, ?_, ?_⟩ <;> rw [← hpo]
      exact hs'.symm

/-- Successful `cancelPurchaseOrder` run. -/
theorem cancelPurchaseOrder_ok {s : Store} {oid : Nat} {s' : Store}
    (h : cancelPurchaseOrder s oid = .ok s') :
    ∃ o, findOrderL s.orders oid = some o ∧ o.status = .PENDING ∧
      s' = { s with orders :=
        updateFirstOrder oid (fun x => { x with status := .CANCELLED }) s.orders } := by
  unfold cancelPurchaseOrder at h
  cases hg : getPurchaseOrderById s oid with
  | error e => rw [hg] at h; simp at h
  | ok o =>
  rw [hg] at h
  dsimp only at h
  by_cases hst : o.status = OrderStatus.PENDING
  · rw [if_neg (by simp [hst])] at h
    simp at h
    exact ⟨o, getPurchaseOrderById_ok hg, hst, h.symm⟩
  · rw [if_pos (by simp [hst])] at h
    simp at h

/-- Successful `receivePurchaseOrder` run. -/
theorem receivePurchaseOrder_ok {s : Store} {oid : Nat} {s' : Store}
    (h : receivePurchaseOrder s oid = .ok s') :
    ∃ o, findOrderL s.orders oid = some o ∧ o.status = .PENDING ∧
      s' = { s with
        orders := updateFirstOrder oid
          (fun x => { x with status := .RECEIVED, actualArrivalDate := some s.now })
          s.orders,
        stocks :=
          match findStockL s.stocks o.productId o.warehouseId with
          | some _ =>
              updateFirstStock o.productId o.warehouseId
                (fun r => { r with quantity := r.quantity + o.quantityOrdered,
                                   lastRestocked := s.now }) s.stocks
          | none =>
              s.stocks ++ [{ productId := o.productId, warehouseId := o.warehouseId,
                             quantity := o.quantityOrdered, lastRestocked := s.now }],
        warehouses := updateFirstWarehouse o.warehouseId
          (fun w => { w with currentOccupancy := w.currentOccupancy + o.quantityOrdered })
          s.warehouses } := by
  unfold receivePurchaseOrder at h
  cases hg : getPurchaseOrderById s oid with
  | error e => rw [hg] at h; simp at h
  | ok o =>
  rw [hg] at h
  dsimp only at h
  by_cases hst : o.status = OrderStatus.PENDING
  · rw [if_neg (by simp [hst])] at h
    simp at h
    exact ⟨o, getPurchaseOrderById_ok hg, hst, h.symm⟩
  · rw [if_pos (by simp [hst])] at h
    simp at h

/-- Successful `updatePurchaseOrder` run. -/
theorem updatePurchaseOrder_ok {s : Store} {oid : Nat} {d : UpdatePurchaseOrderData}
    {s' : Store} (h : updatePurchaseOrder s oid d = .ok s') :
    ∃ o, findOrderL s.orders oid = some o ∧ o.status = .PENDING ∧
      (match d.quantityOrdered with
       | some q => 0 < q
       | none => True) ∧
      s' = { s with orders :=
        updateFirstOrder oid (fun x =>
          let x1 := match d.quantityOrdered with
            | some q => { x with quantityOrdered := q }
            | none => x
          let x2 := match d.expectedArrivalDate with
            | some t => { x1 with expectedArrivalDate := t }
            | none => x1
          match d.notes with
          | some n => { x2 with notes := some n }
          | none => x2) s.orders } := by
  unfold updatePurchaseOrder at h
  cases hg : getPurchaseOrderById s oid with
  | error e => rw [hg] at h; simp at h
  | ok o =>
  rw [hg] at h
  dsimp only at h
  by_cases hst : o.status = OrderStatus.PENDING
  · rw [if_neg (by simp [hst])] at h
    refine ⟨o, getPurchaseOrderById_ok hg, hst, ?_⟩
    cases hdq : d.quantityOrdered with
    | none =>
        rw [hdq] at h
        dsimp only at h
        simp at h
        exact ⟨trivial, h.symm⟩
    | some q =>
        rw [hdq] at h
        dsimp only at h
        by_cases hq0 : q ≤ 0
        · rw [if_pos hq0] at h; simp at h
        rw [if_neg hq0] at h
        by_cases hdiff : q - o.quantityOrdered > 0
        · rw [if_pos hdiff] at h
          cases hca : canAccommodate s o.warehouseId (q - o.quantityOrdered) with
          | error e => rw [hca] at h; simp at h
          | ok b =>
          rw [hca] at h
          cases b with
          | false =>
              cases hcc : checkCapacity s o.warehouseId <;> rw [hcc] at h <;> simp at h
          | true =>
              dsimp only at h
              simp at h
              exact ⟨not_le.mp hq0, h.symm⟩
        · rw [if_neg hdiff] at h
          dsimp only at h
          simp at h
          exact ⟨not_le.mp hq0, h.symm⟩
  · rw [if_pos (by simp [hst])] at h
    simp at h

theorem findStockL_some {l : List StockRecord} {pid wid : String} {r : StockRecord}
    (h : findStockL l pid wid = some r) :
    r ∈ l ∧ r.productId = pid ∧ r.warehouseId = wid := by
  unfold findStockL at h
  have h1 := List.mem_of_find?_eq_some h
  have h2 := List.find?_some h
  simp at h2
  exact ⟨h1, h2.1, h2.2⟩

theorem findWarehouseL_some {l : List Warehouse} {wid : String} {w : Warehouse}
    (h : findWarehouseL l wid = some w) : w ∈ l ∧ w.id = wid := by
  unfold findWarehouseL at h
  have h1 := List.mem_of_find?_eq_some h
  have h2 := List.find?_some h
  simp at h2
  exact ⟨h1, h2⟩

theorem findOrderL_some {l : List PurchaseOrder} {oid : Nat} {o : PurchaseOrder}
    (h : findOrderL l oid = some o) : o ∈ l ∧ o.id = oid := by
  unfold findOrderL at h
  have h1 := List.mem_of_find?_eq_some h
  have h2 := List.find?_some h
  simp at h2
  exact ⟨h1, h2⟩

/-! ### Store well-formedness -/

/-- The inductive invariant reachable stores satisfy: stock quantities are
non-negative, order quantities are positive (enforced at order creation and
update), warehouse primary keys are unique (database constraint), and each
warehouse's `currentOccupancy` equals the total stock it holds and lies
within `[0, capacity]`. -/
def WF (s : Store) : Prop :=
  (∀ r ∈ s.stocks, 0 ≤ r.quantity) ∧
  (∀ o ∈ s.orders, 0 < o.quantityOrdered) ∧
  s.warehouses.Pairwise (fun a b => a.id ≠ b.id) ∧
  ∀ w ∈ s.warehouses,
    w.currentOccupancy = stockSum s.stocks w.id ∧
    0 ≤ w.currentOccupancy ∧ w.currentOccupancy ≤ w.capacity

theorem pairwise_updateFirst {α β : Type} {p : α → Bool} {f : α → α} (k : α → β)
    {l : List α} (hk : ∀ x, k (f x) = k x)
    (h : l.Pairwise (fun a b => k a ≠ k b)) :
    (updateFirst p f l).Pairwise (fun a b => k a ≠ k b) := by
  have hmap : (updateFirst p f l).map k = l.map k :=
    updateFirst_map_key k (fun x _ => hk x)
  have h1 : ((updateFirst p f l).map k).Pairwise (fun a b => a ≠ b) := by
    rw [hmap]
    exact List.pairwise_map.2 h
  exact List.pairwise_map.1 h1

/-- Warehouse-id uniqueness gives the at-most-one-match shape that
`mem_updateFirst_uniq` needs for the id predicate. -/
theorem warehouse_pairwise_key {l : List Warehouse} {wid : String}
    (h : l.Pairwise (fun a b => a.id ≠ b.id)) :
    l.Pairwise (fun a b => (a.id == wid) = true → (b.id == wid) = false) := by
  refine h.imp ?_
  intro a b hab ha
  have ha' : a.id = wid := by simpa using ha
  by_contra hb
  have hb' : b.id = wid := by
    simpa using (Bool.not_eq_false _).mp hb
  exact hab (ha'.trans hb'.symm)

/-- Effect of the add/receive stock upsert on a warehouse's stock total. -/
theorem stockSum_incUpsert (l : List StockRecord) (pid wid : String) (q tms : Int)
    (w : String) :
    stockSum
      (match findStockL l pid wid with
       | some _ =>
           updateFirstStock pid wid
             (fun r => { r with quantity := r.quantity + q, lastRestocked := tms }) l
       | none =>
           l ++ [{ productId := pid, warehouseId := wid, quantity := q,
                   lastRestocked := tms }]) w
    = stockSum l w + (if wid == w then q else 0) := by
  cases hfind : findStockL l pid wid with
  | some r0 =>
      have key := @stockSum_updateFirst pid wid
        (fun r => { r with quantity := r.quantity + q, lastRestocked := tms }) l w
        (fun r => rfl)
      rw [key, hfind]
      dsimp only
      obtain ⟨_, _, hwid⟩ := findStockL_some hfind
      subst hwid
      cases hw : (r0.warehouseId == w) with
      | true => simp
      | false => simp
  | none =>
      dsimp only
      rw [stockSum_append]

/-- Effect of the remove/transfer-source decrement on a warehouse's stock total. -/
theorem stockSum_decUpdate (l : List StockRecord) (pid wid : String) (q : Int)
    {r0 : StockRecord} (hfind : findStockL l pid wid = some r0) (w : String) :
    stockSum (updateFirstStock pid wid
        (fun r => { r with quantity := r.quantity - q }) l) w
      = stockSum l w - (if wid == w then q else 0) := by
  have key := @stockSum_updateFirst pid wid
    (fun r => { r with quantity := r.quantity - q }) l w (fun r => rfl)
  rw [key, hfind]
  dsimp only
  obtain ⟨_, _, hwid⟩ := findStockL_some hfind
  subst hwid
  cases hw : (r0.warehouseId == w) with
  | true => simp; ring
  | false => simp

/-- WF is preserved by the "increment" phase shared by `addStock`,
`receivePurchaseOrder` and the destination half of `transferStock`:
upsert `q` into the (pid, wid) stock row and add `q` to the warehouse's
occupancy, provided `q` fits in the warehouse's remaining capacity. -/
theorem WF_incPhase {s : Store} (pid wid : String) (q tms : Int)
    {orders' : List PurchaseOrder}
    (hWF : WF s) (hq : 0 < q)
    (hcap : ∀ w0, findWarehouseL s.warehouses wid = some w0 →
       q ≤ w0.capacity - w0.currentOccupancy)
    (hord : ∀ o ∈ orders', 0 < o.quantityOrdered) :
    WF { s with
      orders := orders',
      stocks :=
        match findStockL s.stocks pid wid with
        | some _ =>
            updateFirstStock pid wid
              (fun r => { r with quantity := r.quantity + q,
                                 lastRestocked := tms }) s.stocks
        | none =>
            s.stocks ++ [{ productId := pid, warehouseId := wid, quantity := q,
                           lastRestocked := tms }],
      warehouses :=
        updateFirstWarehouse wid
          (fun w => { w with currentOccupancy := w.currentOccupancy + q })
          s.warehouses } := by
  obtain ⟨hpos, hordold, hnd, hws⟩ := hWF
  refine ⟨?_, hord, ?_, ?_⟩
  · -- stock quantities stay non-negative
    intro r hr
    simp only [] at hr
    cases hfind : findStockL s.stocks pid wid with
    | some r0 =>
        rw [hfind] at hr
        unfold updateFirstStock at hr
        rcases mem_updateFirst hr with h | ⟨x0, hx0, hfx⟩
        · exact hpos r h
        · subst hfx
          have h0 := hpos x0 (List.mem_of_find?_eq_some hx0)
          simp
          linarith
    | none =>
        rw [hfind] at hr
        rcases List.mem_append.1 hr with h | h
        · exact hpos r h
        · simp at h
          subst h
          simp
          linarith
  · -- warehouse ids stay pairwise distinct
    simp only []
    unfold updateFirstWarehouse
    exact pairwise_updateFirst (fun w : Warehouse => w.id) (fun x => rfl) hnd
  · -- per-warehouse occupancy accounting
    intro w' hw'
    simp only [] at hw' ⊢
    unfold updateFirstWarehouse at hw'
    rcases mem_updateFirst_uniq (warehouse_pairwise_key hnd) hw' with
      ⟨hmem, hfalse⟩ | ⟨w0, hw0, hfw⟩
    · have hid : ¬ w'.id = wid := by simpa using hfalse
      obtain ⟨hocc, h0, hcapw⟩ := hws w' hmem
      refine ⟨?_, h0, hcapw⟩
      rw [stockSum_incUpsert]
      rw [if_neg (by simpa using fun h => hid h.symm)]
      simpa using hocc
    · have hw0' : findWarehouseL s.warehouses wid = some w0 := hw0
      obtain ⟨hw0mem, hw0id⟩ := findWarehouseL_some hw0'
      obtain ⟨hocc, h0, hcapw⟩ := hws w0 hw0mem
      have hslack := hcap w0 hw0'
      subst hfw
      refine ⟨?_, by simp; linarith, by simp; linarith⟩
      show w0.currentOccupancy + q = _
      rw [stockSum_incUpsert]
      have : (wid == w0.id) = true := by simp [hw0id]
      rw [if_pos this]
      simp [hocc, hw0id]

/-- WF is preserved by the "decrement" phase shared by `removeStock` and the
source half of `transferStock`: subtract `q ≤ r0.quantity` from the existing
(pid, wid) stock row and from the warehouse's occupancy. -/
theorem WF_decPhase {s : Store} (pid wid : String) (q : Int) {r0 : StockRecord}
    (hWF : WF s) (hq : 0 < q)
    (hfind : findStockL s.stocks pid wid = some r0) (hge : q ≤ r0.quantity) :
    WF { s with
      stocks :=
        updateFirstStock pid wid
          (fun r => { r with quantity := r.quantity - q }) s.stocks,
      warehouses :=
        updateFirstWarehouse wid
          (fun w => { w with currentOccupancy := w.currentOccupancy - q })
          s.warehouses } := by
  obtain ⟨hpos, hordold, hnd, hws⟩ := hWF
  obtain ⟨hr0mem, hr0pid, hr0wid⟩ := findStockL_some hfind
  refine ⟨?_, hordold, ?_, ?_⟩
  · intro r hr
    simp only [] at hr
    unfold updateFirstStock at hr
    rcases mem_updateFirst hr with h | ⟨x0, hx0, hfx⟩
    · exact hpos r h
    · have hx0' : findStockL s.stocks pid wid = some x0 := hx0
      rw [hfind] at hx0'
      have hx0'' : x0 = r0 := (Option.some.inj hx0').symm
      subst hfx
      simp
      rw [hx0'']
      linarith
  · simp only []
    unfold updateFirstWarehouse
    exact pairwise_updateFirst (fun w : Warehouse => w.id) (fun x => rfl) hnd
  · intro w' hw'
    simp only [] at hw' ⊢
    unfold updateFirstWarehouse at hw'
    rcases mem_updateFirst_uniq (warehouse_pairwise_key hnd) hw' with
      ⟨hmem, hfalse⟩ | ⟨w0, hw0, hfw⟩
    · have hid : ¬ w'.id = wid := by simpa using hfalse
      obtain ⟨hocc, h0, hcapw⟩ := hws w' hmem
      refine ⟨?_, h0, hcapw⟩
      rw [stockSum_decUpdate _ _ _ _ hfind]
      rw [if_neg (by simpa using fun h => hid h.symm)]
      simpa using hocc
    · have hw0' : findWarehouseL s.warehouses wid = some w0 := hw0
      obtain ⟨hw0mem, hw0id⟩ := findWarehouseL_some hw0'
      obtain ⟨hocc, h0, hcapw⟩ := hws w0 hw0mem
      have hbound : r0.quantity ≤ stockSum s.stocks wid :=
        le_stockSum_of_mem hr0mem hr0wid hpos
      subst hfw
      refine ⟨?_, by simp; rw [hocc, hw0id]; linarith, by simp; linarith⟩
      show w0.currentOccupancy - q = _
      rw [stockSum_decUpdate _ _ _ _ hfind]
      have : (wid == w0.id) = true := by simp [hw0id]
      rw [if_pos this]
      simp [hocc, hw0id]

/-- `addStock` preserves the invariant. -/
theorem WF_addStock {s : Store} {d : AddStockData} {s' : Store}
    (hWF : WF s) (h : addStock s d = .ok s') : WF s' := by
  obtain ⟨hq, _, ⟨w0, hw0, hslack⟩, hs'⟩ := addStock_ok h
  subst hs'
  refine WF_incPhase d.productId d.warehouseId d.quantity s.now hWF hq ?_ hWF.2.1
  intro w1 hw1
  rw [hw0] at hw1
  have : w0 = w1 := Option.some.inj hw1
  subst this
  exact hslack

/-- `removeStock` preserves the invariant. -/
theorem WF_removeStock {s : Store} {d : RemoveStockData} {s' : Store}
    (hWF : WF s) (h : removeStock s d = .ok s') : WF s' := by
  obtain ⟨hq, _, _, ⟨r0, hr0, hge⟩, hs'⟩ := removeStock_ok h
  subst hs'
  exact WF_decPhase d.productId d.warehouseId d.quantity hWF hq hr0 hge

/-- `transferStock` preserves the invariant: the source half is a decrement
phase, after which the destination half is an increment phase whose capacity
check (made against the original store) still applies because the source
update did not touch the destination warehouse. -/
theorem WF_transferStock {s : Store} {d : TransferStockData} {s' : Store}
    (hWF : WF s) (h : transferStock s d = .ok s') : WF s' := by
  obtain ⟨hq, _, _, hne, ⟨r0, hr0, hge⟩, ⟨wt, hwt, hslack⟩, hs'⟩ := transferStock_ok h
  subst hs'
  have hmid : WF { s with
      stocks := updateFirstStock d.productId d.fromWarehouseId
        (fun r => { r with quantity := r.quantity - d.quantity }) s.stocks,
      warehouses := updateFirstWarehouse d.fromWarehouseId
        (fun w => { w with currentOccupancy := w.currentOccupancy - d.quantity })
        s.warehouses } :=
    WF_decPhase d.productId d.fromWarehouseId d.quantity hWF hq hr0 hge
  have hfind_mid :
      findWarehouseL
        (updateFirstWarehouse d.fromWarehouseId
          (fun w => { w with currentOccupancy := w.currentOccupancy - d.quantity })
          s.warehouses) d.toWarehouseId
      = findWarehouseL s.warehouses d.toWarehouseId := by
    unfold updateFirstWarehouse findWarehouseL
    refine find?_updateFirst_other ?_ ?_
    · intro x hx
      have hx' : x.id = d.fromWarehouseId := by simpa using hx
      simp [hx']
      intro hcontra
      exact hne (hcontra ▸ rfl)
    · intro x
      rfl
  have hcap2 : ∀ w1, findWarehouseL
      (updateFirstWarehouse d.fromWarehouseId
        (fun w => { w with currentOccupancy := w.currentOccupancy - d.quantity })
        s.warehouses) d.toWarehouseId = some w1 →
      d.quantity ≤ w1.capacity - w1.currentOccupancy := by
    intro w1 hw1
    rw [hfind_mid, hwt] at hw1
    have heq : wt = w1 := Option.some.inj hw1
    subst heq
    exact hslack
  exact @WF_incPhase
    { s with
      stocks := updateFirstStock d.productId d.fromWarehouseId
        (fun r => { r with quantity := r.quantity - d.quantity }) s.stocks,
      warehouses := updateFirstWarehouse d.fromWarehouseId
        (fun w => { w with currentOccupancy := w.currentOccupancy - d.quantity })
        s.warehouses }
    d.productId d.toWarehouseId d.quantity s.now s.orders hmid hq hcap2 hmid.2.1

/-- `createPurchaseOrder` preserves the invariant (it only appends an order
whose quantity passed the positivity guard). -/
theorem WF_createPurchaseOrder {s : Store} {d : CreatePurchaseOrderData}
    {s' : Store} {po : PurchaseOrder}
    (hWF : WF s) (h : createPurchaseOrder s d = .ok (s', po)) : WF s' := by
  obtain ⟨hq, _, _, _, _, _, _, _, hpoq, _, hs'⟩ := createPurchaseOrder_ok h
  subst hs'
  obtain ⟨hpos, hord, hnd, hws⟩ := hWF
  refine ⟨hpos, ?_, hnd, hws⟩
  intro o ho
  rcases List.mem_append.1 ho with h1 | h1
  · exact hord o h1
  · simp at h1
    subst h1
    rw [hpoq]
    exact hq

/-- `cancelPurchaseOrder` preserves the invariant (status-only update). -/
theorem WF_cancelPurchaseOrder {s : Store} {oid : Nat} {s' : Store}
    (hWF : WF s) (h : cancelPurchaseOrder s oid = .ok s') : WF s' := by
  obtain ⟨o, _, _, hs'⟩ := cancelPurchaseOrder_ok h
  subst hs'
  obtain ⟨hpos, hord, hnd, hws⟩ := hWF
  refine ⟨hpos, ?_, hnd, hws⟩
  intro x hx
  simp only [] at hx
  unfold updateFirstOrder at hx
  rcases mem_updateFirst hx with h1 | ⟨x0, hx0, hfx⟩
  · exact hord x h1
  · subst hfx
    simpa using hord x0 (List.mem_of_find?_eq_some hx0)

/-- `updatePurchaseOrder` preserves the invariant (a changed quantity passed
the positivity guard). -/
theorem WF_updatePurchaseOrder {s : Store} {oid : Nat} {d : UpdatePurchaseOrderData}
    {s' : Store} (hWF : WF s) (h : updatePurchaseOrder s oid d = .ok s') : WF s' := by
  obtain ⟨o, _, _, hqpos, hs'⟩ := updatePurchaseOrder_ok h
  subst hs'
  obtain ⟨hpos, hord, hnd, hws⟩ := hWF
  refine ⟨hpos, ?_, hnd, hws⟩
  intro x hx
  simp only [] at hx
  unfold updateFirstOrder at hx
  rcases mem_updateFirst hx with h1 | ⟨x0, hx0, hfx⟩
  · exact hord x h1
  · subst hfx
    have hbase := hord x0 (List.mem_of_find?_eq_some hx0)
    cases hdq : d.quantityOrdered with
    | none =>
        simp only [hdq]
        cases hde : d.expectedArrivalDate <;> cases hdn : d.notes <;> simpa using hbase
    | some q =>
        simp only [hdq] at hqpos ⊢
        cases hde : d.expectedArrivalDate <;> cases hdn : d.notes <;> simpa using hqpos

/-- Whether receiving order `oid` now would still fit the warehouse's
remaining capacity. `Receive` itself never checks this. -/
def receiveFitsB (s : Store) (oid : Nat) : Bool :=
  match findOrderL s.orders oid with
  | none => true
  | some o =>
      match findWarehouseL s.warehouses o.warehouseId with
      | none => true
      | some w => decide (o.quantityOrdered ≤ w.capacity - w.currentOccupancy)

/-- `receivePurchaseOrder` preserves the invariant when the received
quantity still fits the warehouse's remaining capacity. -/
theorem WF_receivePurchaseOrder {s : Store} {oid : Nat} {s' : Store}
    (hWF : WF s) (hfits : receiveFitsB s oid = true)
    (h : receivePurchaseOrder s oid = .ok s') : WF s' := by
  obtain ⟨o, hfindo, hstatus, hs'⟩ := receivePurchaseOrder_ok h
  subst hs'
  have hq : 0 < o.quantityOrdered :=
    hWF.2.1 o (findOrderL_some hfindo).1
  have hords : ∀ x ∈ updateFirstOrder oid
      (fun x => { x with status := OrderStatus.RECEIVED,
                         actualArrivalDate := some s.now }) s.orders,
      0 < x.quantityOrdered := by
    intro x hx
    unfold updateFirstOrder at hx
    rcases mem_updateFirst hx with h1 | ⟨x0, hx0, hfx⟩
    · exact hWF.2.1 x h1
    · subst hfx
      simpa using hWF.2.1 x0 (List.mem_of_find?_eq_some hx0)
  refine WF_incPhase o.productId o.warehouseId o.quantityOrdered s.now hWF hq ?_ hords
  intro w1 hw1
  unfold receiveFitsB at hfits
  rw [hfindo] at hfits
  dsimp only at hfits
  rw [hw1] at hfits
  simpa using hfits

/-- One scan iteration preserves the invariant: it changes the store only
through `createPurchaseOrder` (or not at all). -/
theorem WF_processLowStock {s : Store} {row : LowStockRow} (hWF : WF s) :
    WF (processLowStock s row).1 := by
  unfold processLowStock
  by_cases hp : hasPendingOrder s row.product.id row.warehouse.id = true
  · rw [if_pos hp]
    exact hWF
  rw [if_neg hp]
  dsimp only
  by_cases hc : row.warehouse.capacity - row.warehouse.currentOccupancy ≤ 0
  · rw [if_pos hc]
    exact hWF
  rw [if_neg hc]
  by_cases hsmall : 10 * (if row.product.reorderThreshold +
        intCeilDiv (2 * row.product.reorderThreshold) 10 - row.stock.quantity >
        row.warehouse.capacity - row.warehouse.currentOccupancy then
        row.warehouse.capacity - row.warehouse.currentOccupancy
      else row.product.reorderThreshold +
        intCeilDiv (2 * row.product.reorderThreshold) 10 - row.stock.quantity) <
      row.product.reorderThreshold
  · rw [if_pos hsmall]
    exact hWF
  rw [if_neg hsmall]
  split
  next s1 po heq => exact WF_createPurchaseOrder hWF heq
  next e heq => exact hWF

/-- The scan loop preserves the invariant. -/
theorem WF_checkAndReorderLoop {rows : List LowStockRow} :
    ∀ {s : Store}, WF s → WF (checkAndReorderLoop s rows).1 := by
  induction rows with
  | nil => intro s h; exact h
  | cons row rest ih =>
      intro s h
      have h1 : WF (processLowStock s row).1 := WF_processLowStock h
      unfold checkAndReorderLoop
      cases hpr : processLowStock s row with
      | mk s1 out =>
          rw [hpr] at h1
          have h2 := ih h1
          cases out with
          | inl o =>
              dsimp only
              cases hl : checkAndReorderLoop s1 rest with
              | mk s2 r2 =>
                  rw [hl] at h2
                  cases r2 with
                  | mk os ks => exact h2
          | inr k =>
              dsimp only
              cases hl : checkAndReorderLoop s1 rest with
              | mk s2 r2 =>
                  rw [hl] at h2
                  cases r2 with
                  | mk os ks => exact h2

/-- The whole reorder scan preserves the invariant. -/
theorem WF_checkAndReorder {s : Store} (hWF : WF s) : WF (checkAndReorder s).1 := by
  unfold checkAndReorder
  dsimp only
  have h := @WF_checkAndReorderLoop (findStocksBelowThreshold s) s hWF
  cases hl : checkAndReorderLoop s (findStocksBelowThreshold s) with
  | mk s1 r =>
      rw [hl] at h
      cases r with
      | mk os ks => exact h

/-- Any successfully committed operation preserves the invariant, provided a
`Receive` only commits while its quantity still fits the warehouse. -/
theorem WF_applyOp {s : Store} {op : Op} {s' : Store}
    (hWF : WF s)
    (hfits : ∀ oid, op = Op.poReceive oid → receiveFitsB s oid = true)
    (h : applyOp s op = .ok s') : WF s' := by
  cases op with
  | add d => exact WF_addStock hWF h
  | remove d => exact WF_removeStock hWF h
  | transfer d => exact WF_transferStock hWF h
  | poCreate d =>
      unfold applyOp at h
      dsimp only at h
      cases hc : createPurchaseOrder s d with
      | error e => rw [hc] at h; simp [Except.map] at h
      | ok pr =>
          rw [hc] at h
          cases pr with
          | mk s1 po =>
              simp [Except.map] at h
              subst h
              exact WF_createPurchaseOrder hWF hc
  | poUpdate oid d => exact WF_updatePurchaseOrder hWF h
  | poCancel oid => exact WF_cancelPurchaseOrder hWF h
  | poReceive oid => exact WF_receivePurchaseOrder hWF (hfits oid rfl) h
  | reorderScan =>
      unfold applyOp at h
      dsimp only at h
      simp at h
      subst h
      exact WF_checkAndReorder hWF

/-- Committed-state preservation: a failed operation left the store as it was. -/
theorem WF_applyCommitted {s : Store} {op : Op}
    (hWF : WF s)
    (hfits : ∀ oid, op = Op.poReceive oid → receiveFitsB s oid = true) :
    WF (applyCommitted s op) := by
  unfold applyCommitted
  cases h : applyOp s op with
  | ok s' => exact WF_applyOp hWF hfits h
  | error e => exact hWF

/-- A sequence of operations is receive-safe when each `Receive` runs in a
state where the order's quantity still fits its warehouse. -/
def SafeOps (s : Store) : List Op → Prop
  | [] => True
  | op :: rest =>
      (∀ oid, op = Op.poReceive oid → receiveFitsB s oid = true) ∧
      SafeOps (applyCommitted s op) rest

/-- A store with one empty active warehouse (capacity 10), one product and
one supplier, used for concrete runs. -/
def baseStore : Store :=
  { warehouses := [{ id := "w1", name := "Main", location := "HQ", capacity := 10,
                     currentOccupancy := 0, isActive := true }],
    products := [{ id := "p1", name := "Widget", reorderThreshold := 0,
                   defaultSupplierId := "sup1", isActive := true }],
    suppliers := [{ id := "sup1", name := "Acme", isActive := true }],
    stocks := [], orders := [], now := 0, nextOrderId := 0 }

/-- Create an order for 10, fill the warehouse with `AddStock 10`, then
receive the order: occupancy 20 in a capacity-10 warehouse. -/
def c1OverOps : List Op :=
  [ .poCreate { productId := "p1", supplierId := "sup1", warehouseId := "w1",
                quantityOrdered := 10, orderDate := none, expectedArrivalDate := none,
                leadTimeDays := none, notes := none },
    .add { productId := "p1", warehouseId := "w1", quantity := 10 },
    .poReceive 0 ]

/-- A receive-safe variant of the same scenario: the order for 5 still fits
when it is received. -/
def c1SafeOps : List Op :=
  [ .poCreate { productId := "p1", supplierId := "sup1", warehouseId := "w1",
                quantityOrdered := 5, orderDate := none, expectedArrivalDate := none,
                leadTimeDays := none, notes := none },
    .add { productId := "p1", warehouseId := "w1", quantity := 5 },
    .poReceive 0 ]

/-- C1, counterexample: the claimed invariant `currentOccupancy ≤ capacity`
is not preserved by every committed sequence. Starting from a well-formed
store whose only warehouse has capacity 10 and occupancy 0, the sequence
purchase-order Create (10 units, capacity check passes), AddStock (10 units,
fills the warehouse), Receive (no capacity check) commits and leaves the
warehouse at occupancy 20 > capacity 10. -/
theorem C1_counterexample :
    WF baseStore ∧
    ∃ w ∈ (c1OverOps.foldl applyCommitted baseStore).warehouses,
      w.capacity < w.currentOccupancy := by
  constructor
  · unfold WF
    decide
  · decide

/-- C1 (amended): after any sequence of committed operations (AddStock,
RemoveStock, TransferStock, purchase-order Create/Update/Cancel/Receive,
reorder scan) starting from a well-formed store, `0 ≤ currentOccupancy ≤
capacity` holds for every warehouse — provided every Receive commits in a
state where the order's `quantityOrdered` still fits the warehouse's
remaining capacity. Receive performs no capacity check of its own, so
without that proviso it preserves `0 ≤ currentOccupancy` but can push
occupancy above capacity (see `C1_counterexample`). -/
theorem C1_occupancy_invariant (s : Store) (ops : List Op)
    (hWF : WF s) (hsafe : SafeOps s ops) :
    WF (ops.foldl applyCommitted s) ∧
    ∀ w ∈ (ops.foldl applyCommitted s).warehouses,
      0 ≤ w.currentOccupancy ∧ w.currentOccupancy ≤ w.capacity := by
  have hmain : ∀ (l : List Op) (t : Store), WF t → SafeOps t l →
      WF (l.foldl applyCommitted t) := by
    intro l
    induction l with
    | nil => intro t h _; exact h
    | cons op rest ih =>
        intro t h hsafe2
        obtain ⟨h1, h2⟩ := hsafe2
        exact ih _ (WF_applyCommitted h h1) h2
  have hW := hmain ops s hWF hsafe
  exact ⟨hW, fun w hw => (hW.2.2.2 w hw).2⟩

/-- C1 witness: the invariant theorem applied to a concrete receive-safe
run (create 5, add 5, receive 5 into a capacity-10 warehouse). -/
theorem C1_witness :
    WF (c1SafeOps.foldl applyCommitted baseStore) ∧
    ∀ w ∈ (c1SafeOps.foldl applyCommitted baseStore).warehouses,
      0 ≤ w.currentOccupancy ∧ w.currentOccupancy ≤ w.capacity := by
  have hWF : WF baseStore := by unfold WF; decide
  have hsafe : SafeOps baseStore c1SafeOps := by
    refine ⟨?_, ?_, ?_, trivial⟩
    · intro oid h; exact Op.noConfusion h
    · intro oid h; exact Op.noConfusion h
    · intro oid h
      cases h
      decide
  exact C1_occupancy_invariant baseStore c1SafeOps hWF hsafe

theorem findStockL_updateFirst_self {l : List StockRecord} {pid wid : String}
    {r0 : StockRecord} {f : StockRecord → StockRecord}
    (hfind : findStockL l pid wid = some r0)
    (hf : ∀ r, (f r).productId = r.productId ∧ (f r).warehouseId = r.warehouseId) :
    findStockL (updateFirstStock pid wid f l) pid wid = some (f r0) := by
  have hp : (r0.productId == pid && r0.warehouseId == wid) = true := by
    have h2 := List.find?_some hfind
    simpa using h2
  unfold findStockL updateFirstStock
  refine find?_updateFirst_self hfind ?_
  show ((f r0).productId == pid && (f r0).warehouseId == wid) = true
  rw [(hf r0).1, (hf r0).2]
  exact hp

theorem findWarehouseL_updateFirst_self {l : List Warehouse} {wid : String}
    {w0 : Warehouse} {f : Warehouse → Warehouse}
    (hfind : findWarehouseL l wid = some w0)
    (hf : ∀ w, (f w).id = w.id) :
    findWarehouseL (updateFirstWarehouse wid f l) wid = some (f w0) := by
  have hp : (w0.id == wid) = true := by
    have h2 := List.find?_some hfind
    simpa using h2
  unfold findWarehouseL updateFirstWarehouse
  refine find?_updateFirst_self hfind ?_
  show ((f w0).id == wid) = true
  rw [hf w0]
  exact hp

theorem findStockL_append_of_none {l : List StockRecord} {pid wid : String}
    (h : findStockL l pid wid = none) (x : StockRecord)
    (hx : (x.productId == pid && x.warehouseId == wid) = true) :
    findStockL (l ++ [x]) pid wid = some x := by
  unfold findStockL at h ⊢
  rw [List.find?_append, h]
  have hx2 : (fun r : StockRecord => r.productId == pid && r.warehouseId == wid) x = true := hx
  have h3 : List.find?
      (fun r : StockRecord => r.productId == pid && r.warehouseId == wid) [x] = some x :=
    List.find?_cons_of_pos [] hx2
  rw [h3]
  rfl

/-- Observable effect of a successful `addStock` on the touched pair. -/
theorem addStock_qty_occ {s : Store} {d : AddStockData} {s' : Store}
    (h : addStock s d = .ok s') :
    stockQty s' d.productId d.warehouseId
      = stockQty s d.productId d.warehouseId + d.quantity ∧
    whOcc s' d.warehouseId = whOcc s d.warehouseId + d.quantity := by
  obtain ⟨hq, _, ⟨w0, hw0, _⟩, hs'⟩ := addStock_ok h
  subst hs'
  constructor
  · unfold stockQty findStock
    dsimp only
    cases hfind : findStockL s.stocks d.productId d.warehouseId with
    | some r0 =>
        dsimp only
        rw [@findStockL_updateFirst_self s.stocks d.productId d.warehouseId r0
          (fun r => { r with quantity := r.quantity + d.quantity, lastRestocked := s.now })
          hfind (fun r => ⟨rfl, rfl⟩)]
    | none =>
        dsimp only
        rw [findStockL_append_of_none hfind _ (by simp)]
        simp
  · unfold whOcc findWarehouse
    dsimp only
    rw [@findWarehouseL_updateFirst_self s.warehouses d.warehouseId w0
      (fun w => { w with currentOccupancy := w.currentOccupancy + d.quantity })
      hw0 (fun w => rfl), hw0]

/-- Observable effect of a successful `removeStock` on the touched pair. -/
theorem removeStock_qty_occ {s : Store} {d : RemoveStockData} {s' : Store}
    (h : removeStock s d = .ok s') :
    stockQty s' d.productId d.warehouseId
      = stockQty s d.productId d.warehouseId - d.quantity ∧
    whOcc s' d.warehouseId = whOcc s d.warehouseId - d.quantity := by
  obtain ⟨hq, _, ⟨w, hw⟩, ⟨r0, hr0, hge⟩, hs'⟩ := removeStock_ok h
  subst hs'
  constructor
  · unfold stockQty findStock
    dsimp only
    rw [@findStockL_updateFirst_self s.stocks d.productId d.warehouseId r0
      (fun r => { r with quantity := r.quantity - d.quantity })
      hr0 (fun r => ⟨rfl, rfl⟩), hr0]
  · unfold whOcc findWarehouse
    unfold findWarehouse at hw
    dsimp only
    rw [@findWarehouseL_updateFirst_self s.warehouses d.warehouseId w
      (fun w => { w with currentOccupancy := w.currentOccupancy - d.quantity })
      hw (fun w => rfl), hw]

/-- C5: `Receive` on an order whose status is CANCELLED or already RECEIVED
fails with the InvalidState error (the `BadRequestError` whose message names
the blocking status), and the committed state is unchanged — every
StockRecord quantity and every warehouse occupancy is exactly as before. -/
theorem C5_receive_non_pending_fails (s : Store) (oid : Nat) (o : PurchaseOrder)
    (hfind : findOrder s oid = some o)
    (hst : o.status = OrderStatus.CANCELLED ∨ o.status = OrderStatus.RECEIVED) :
    receivePurchaseOrder s oid =
      .error (.badRequest ("Cannot receive purchase order with status \"" ++
        o.status.str ++ "\". Only PENDING orders can be received.")) ∧
    applyCommitted s (.poReceive oid) = s := by
  have hne : ¬ o.status = OrderStatus.PENDING := by
    rcases hst with h | h <;> simp [h]
  have hg : getPurchaseOrderById s oid = .ok o := by
    unfold getPurchaseOrderById
    rw [hfind]
  have herr : receivePurchaseOrder s oid =
      .error (.badRequest ("Cannot receive purchase order with status \"" ++
        o.status.str ++ "\". Only PENDING orders can be received.")) := by
    unfold receivePurchaseOrder
    rw [hg]
    dsimp only
    rw [if_pos (by simpa using hne)]
  refine ⟨herr, ?_⟩
  unfold applyCommitted applyOp
  dsimp only
  rw [herr]

/-- The concrete order and store for the C5 witness: a CANCELLED order. -/
def c5Order : PurchaseOrder :=
  { id := 0, productId := "p1", supplierId := "sup1", warehouseId := "w1",
    quantityOrdered := 5, orderDate := 0, expectedArrivalDate := 3,
    actualArrivalDate := none, notes := none, status := .CANCELLED }

def c5Store : Store := { baseStore with orders := [c5Order], nextOrderId := 1 }

/-- C5 witness: receiving the cancelled order 0 in `c5Store` fails and
commits nothing. -/
theorem C5_witness :
    receivePurchaseOrder c5Store 0 =
      .error (.badRequest ("Cannot receive purchase order with status \"" ++
        c5Order.status.str ++ "\". Only PENDING orders can be received.")) ∧
    applyCommitted c5Store (.poReceive 0) = c5Store :=
  C5_receive_non_pending_fails c5Store 0 c5Order (by decide) (Or.inl rfl)

/-- C6 (amended): a same-warehouse transfer always fails and mutates
nothing, for every state and arguments. The error is the InvalidArgument
`BadRequestError` "Source and destination warehouses must be different"
whenever the quantity is positive and the product and warehouse exist
(and the non-positive-quantity failure is also a `BadRequestError`);
when the product or warehouse is missing the failure is the earlier
`NotFoundError` instead, contrary to the claim's unconditional
"fails with InvalidArgument". -/
theorem C6_transfer_same_warehouse (s : Store) (pid wid : String) (q : Int) :
    (∃ e, transferStock s ⟨pid, wid, wid, q⟩ = .error e ∧
      (0 < q → (findProduct s pid).isSome → (findWarehouse s wid).isSome →
        e = .badRequest "Source and destination warehouses must be different")) ∧
    applyCommitted s (.transfer ⟨pid, wid, wid, q⟩) = s := by
  have key : ∃ e, transferStock s ⟨pid, wid, wid, q⟩ = .error e ∧
      (0 < q → (findProduct s pid).isSome → (findWarehouse s wid).isSome →
        e = .badRequest "Source and destination warehouses must be different") := by
    unfold transferStock
    by_cases hq : q ≤ 0
    · refine ⟨.badRequest "Quantity must be greater than 0", ?_, ?_⟩
      · rw [if_pos hq]
      · intro h0
        exact absurd h0 (not_lt.mpr hq)
    · rw [if_neg hq]
      cases hfp : findProduct s pid with
      | none =>
          have hvp : validateProductExists s pid =
              .error (.notFound "Product not found") := by
            unfold validateProductExists
            rw [hfp]
          rw [hvp]
          refine ⟨.notFound "Product not found", rfl, ?_⟩
          intro _ hsome _
          simp at hsome
      | some p =>
          have hvp : validateProductExists s pid = .ok p := by
            unfold validateProductExists
            rw [hfp]
          rw [hvp]
          dsimp only
          cases hfw : findWarehouse s wid with
          | none =>
              have hvw : validateWarehouseExists s wid =
                  .error (.notFound "Warehouse not found") := by
                unfold validateWarehouseExists
                rw [hfw]
              rw [hvw]
              refine ⟨.notFound "Warehouse not found", rfl, ?_⟩
              intro _ _ hsome
              simp at hsome
          | some w =>
              have hvw : validateWarehouseExists s wid = .ok w := by
                unfold validateWarehouseExists
                rw [hfw]
              rw [hvw]
              dsimp only
              rw [if_pos (by simp : (wid == wid) = true)]
              exact ⟨.badRequest "Source and destination warehouses must be different",
                rfl, fun _ _ _ => rfl⟩
  obtain ⟨e, he, himp⟩ := key
  refine ⟨⟨e, he, himp⟩, ?_⟩
  unfold applyCommitted applyOp
  dsimp only
  rw [he]

/-- A completely empty store. -/
def emptyStore : Store :=
  { warehouses := [], products := [], suppliers := [], stocks := [], orders := [],
    now := 0, nextOrderId := 0 }

/-- C6 counterexample: on the empty store (product "p1" absent) the
same-warehouse transfer fails with `NotFoundError` "Product not found" —
not with the InvalidArgument (`BadRequestError`) the claim asserts for
every state. -/
theorem C6_counterexample :
    transferStock emptyStore ⟨"p1", "w1", "w1", 5⟩ =
      .error (.notFound "Product not found") ∧
    ∀ msg, transferStock emptyStore ⟨"p1", "w1", "w1", 5⟩ ≠
      .error (.badRequest msg) := by
  have h1 : transferStock emptyStore ⟨"p1", "w1", "w1", 5⟩ =
      .error (.notFound "Product not found") := by decide
  refine ⟨h1, ?_⟩
  intro msg h
  rw [h1] at h
  simp at h

/-- C6 witness: with the product and warehouse present and a positive
quantity, the same-warehouse transfer fails with exactly the
same-warehouse `BadRequestError`, and commits nothing. -/
theorem C6_witness :
    transferStock baseStore ⟨"p1", "w1", "w1", 5⟩ =
      .error (.badRequest "Source and destination warehouses must be different") ∧
    applyCommitted baseStore (.transfer ⟨"p1", "w1", "w1", 5⟩) = baseStore := by
  obtain ⟨⟨e, he, himp⟩, hcommit⟩ :=
    C6_transfer_same_warehouse baseStore "p1" "w1" 5
  refine ⟨?_, hcommit⟩
  rw [he, himp (by decide) (by decide) (by decide)]

/-- C7: a successful `AddStock` of `q` followed by a successful
`RemoveStock` of the same `q` on the same (product, warehouse) pair returns
the StockRecord's quantity and the warehouse's occupancy to their values
before the AddStock (quantity read as 0 when no record existed). -/
theorem C7_add_remove_roundtrip (s s1 s2 : Store) (pid wid : String) (q : Int)
    (hadd : addStock s { productId := pid, warehouseId := wid, quantity := q } = .ok s1)
    (hrem : removeStock s1 { productId := pid, warehouseId := wid, quantity := q } = .ok s2) :
    stockQty s2 pid wid = stockQty s pid wid ∧ whOcc s2 wid = whOcc s wid := by
  obtain ⟨ha1, ha2⟩ := addStock_qty_occ hadd
  obtain ⟨hr1, hr2⟩ := removeStock_qty_occ hrem
  constructor
  · rw [hr1, ha1]
    ring
  · rw [hr2, ha2]
    ring

def c7S1 : Store :=
  applyCommitted baseStore (.add { productId := "p1", warehouseId := "w1", quantity := 5 })

def c7S2 : Store :=
  applyCommitted c7S1 (.remove { productId := "p1", warehouseId := "w1", quantity := 5 })

/-- C7 witness: add 5 then remove 5 on the base store restores quantity 0
and occupancy 0. -/
theorem C7_witness :
    stockQty c7S2 "p1" "w1" = stockQty baseStore "p1" "w1" ∧
    whOcc c7S2 "w1" = whOcc baseStore "w1" :=
  C7_add_remove_roundtrip baseStore c7S1 c7S2 "p1" "w1" 5 (by decide) (by decide)

/-- C10: a successful `RemoveStock` decrements only the quantity field of
the affected StockRecord — its `lastRestocked` timestamp is carried over
unchanged — and decrements the warehouse occupancy, while a successful
`AddStock` refreshes `lastRestocked` to the current clock in both the
create and the increment case. -/
theorem C10_lastRestocked (s : Store) (pid wid : String) (q : Int) (s1 s2 : Store) :
    (removeStock s { productId := pid, warehouseId := wid, quantity := q } = .ok s1 →
      ∃ r0, findStock s pid wid = some r0 ∧
        findStock s1 pid wid =
          some { productId := r0.productId, warehouseId := r0.warehouseId,
                 quantity := r0.quantity - q, lastRestocked := r0.lastRestocked } ∧
        whOcc s1 wid = whOcc s wid - q) ∧
    (addStock s { productId := pid, warehouseId := wid, quantity := q } = .ok s2 →
      ∃ r1, findStock s2 pid wid = some r1 ∧ r1.lastRestocked = s.now ∧
        r1.quantity = stockQty s pid wid + q) := by
  constructor
  · intro h
    obtain ⟨hq, _, ⟨w, hw⟩, ⟨r0, hr0, hge⟩, hs'⟩ := removeStock_ok h
    refine ⟨r0, hr0, ?_, (removeStock_qty_occ h).2⟩
    subst hs'
    unfold findStock
    dsimp only
    rw [@findStockL_updateFirst_self s.stocks pid wid r0
      (fun r => { r with quantity := r.quantity - q })
      hr0 (fun r => ⟨rfl, rfl⟩)]
  · intro h
    obtain ⟨hq, _, ⟨w0, hw0, _⟩, hs'⟩ := addStock_ok h
    have hqty := (addStock_qty_occ h).1
    subst hs'
    unfold findStock
    dsimp only
    cases hfind : findStockL s.stocks pid wid with
    | some r0 =>
        rw [@findStockL_updateFirst_self s.stocks pid wid r0
          (fun r => { r with quantity := r.quantity + q, lastRestocked := s.now })
          hfind (fun r => ⟨rfl, rfl⟩)]
        refine ⟨_, rfl, rfl, ?_⟩
        unfold stockQty findStock
        rw [hfind]
    | none =>
        rw [findStockL_append_of_none hfind _ (by simp)]
        refine ⟨_, rfl, rfl, ?_⟩
        unfold stockQty findStock
        rw [hfind]
        simp

def c10S1 : Store :=
  applyCommitted c7S1 (.remove { productId := "p1", warehouseId := "w1", quantity := 2 })

def c10S2 : Store :=
  applyCommitted c7S1 (.add { productId := "p1", warehouseId := "w1", quantity := 2 })

/-- C10 witness: removing 2 of the 5 stocked units keeps `lastRestocked`,
while adding 2 refreshes it; both facts obtained from the frame theorem at
the concrete store. -/
theorem C10_witness :
    (∃ r0, findStock c7S1 "p1" "w1" = some r0 ∧
      findStock c10S1 "p1" "w1" =
        some { productId := r0.productId, warehouseId := r0.warehouseId,
               quantity := r0.quantity - 2, lastRestocked := r0.lastRestocked } ∧
      whOcc c10S1 "w1" = whOcc c7S1 "w1" - 2) ∧
    (∃ r1, findStock c10S2 "p1" "w1" = some r1 ∧ r1.lastRestocked = c7S1.now ∧
      r1.quantity = stockQty c7S1 "p1" "w1" + 2) := by
  have h := C10_lastRestocked c7S1 "p1" "w1" 2 c10S1 c10S2
  exact ⟨h.1 (by decide), h.2 (by decide)⟩

/-- Inversion of membership in the low-stock join. -/
theorem mem_findStocksBelowThreshold {s : Store} {row : LowStockRow}
    (h : row ∈ findStocksBelowThreshold s) :
    row.stock ∈ s.stocks ∧
    findProduct s row.stock.productId = some row.product ∧
    findSupplier s row.product.defaultSupplierId = some row.defaultSupplier ∧
    findWarehouse s row.stock.warehouseId = some row.warehouse ∧
    row.stock.quantity < row.product.reorderThreshold ∧
    row.product.isActive = true ∧ row.warehouse.isActive = true ∧
    row.defaultSupplier.isActive = true := by
  unfold findStocksBelowThreshold at h
  obtain ⟨a, ha, hfa⟩ := List.mem_filterMap.1 h
  cases hfp : findProduct s a.productId with
  | none => rw [hfp] at hfa; simp at hfa
  | some p =>
  rw [hfp] at hfa
  dsimp only at hfa
  cases hfs : findSupplier s p.defaultSupplierId with
  | none => rw [hfs] at hfa; simp at hfa
  | some sup =>
  rw [hfs] at hfa
  dsimp only at hfa
  cases hfw : findWarehouse s a.warehouseId with
  | none => rw [hfw] at hfa; simp at hfa
  | some w =>
  rw [hfw] at hfa
  dsimp only at hfa
  by_cases hcond : (a.quantity < p.reorderThreshold ∧ p.isActive = true ∧
      w.isActive = true ∧ sup.isActive = true)
  · rw [if_pos (by
      simp only [Bool.and_eq_true, decide_eq_true_eq]
      exact ⟨⟨⟨hcond.1, hcond.2.1⟩, hcond.2.2.1⟩, hcond.2.2.2⟩)] at hfa
    have hrow : row = { stock := a, product := p, defaultSupplier := sup, warehouse := w } :=
      (Option.some.inj hfa).symm
    subst hrow
    exact ⟨ha, hfp, hfs, hfw, hcond.1, hcond.2.1, hcond.2.2.1, hcond.2.2.2⟩
  · rw [if_neg (by
      simp only [Bool.and_eq_true, decide_eq_true_eq]
      intro hcontra
      exact hcond ⟨hcontra.1.1.1, hcontra.1.1.2, hcontra.1.2, hcontra.2⟩)] at hfa
    simp at hfa

/-- The scan's pending-order skip entry for a row. -/
def pendingSkip (row : LowStockRow) : SkippedItem :=
  { productId := row.product.id, productName := row.product.name,
    warehouseId := row.warehouse.id, reason := "Pending order already exists" }

/-- The scan's full-capacity skip entry for a row. -/
def fullCapacitySkip (row : LowStockRow) : SkippedItem :=
  { productId := row.product.id, productName := row.product.name,
    warehouseId := row.warehouse.id, reason := "Warehouse at full capacity" }

/-- The scan's insufficient-capacity skip entry for a row. -/
def insufficientSkip (row : LowStockRow) (avail : Int) : SkippedItem :=
  { productId := row.product.id, productName := row.product.name,
    warehouseId := row.warehouse.id,
    reason := "Insufficient capacity (only " ++ toString avail ++ " available)" }

/-- With all guards satisfied, `createPurchaseOrder` succeeds and appends
one PENDING order with the requested quantity. -/
theorem createPurchaseOrder_succeeds {s : Store} {d : CreatePurchaseOrderData}
    {p : Product} {sup : Supplier} {w0 : Warehouse}
    (hq : 0 < d.quantityOrdered)
    (hp : findProduct s d.productId = some p)
    (hsup : findSupplier s d.supplierId = some sup)
    (hw : findWarehouseL s.warehouses d.warehouseId = some w0)
    (hcap : d.quantityOrdered ≤ w0.capacity - w0.currentOccupancy) :
    ∃ po, createPurchaseOrder s d =
        .ok ({ s with orders := s.orders ++ [po], nextOrderId := s.nextOrderId + 1 }, po) ∧
      po.quantityOrdered = d.quantityOrdered ∧ po.id = s.nextOrderId ∧
      po.productId = d.productId ∧ po.warehouseId = d.warehouseId ∧
      po.status = .PENDING := by
  unfold createPurchaseOrder
  rw [if_neg (not_le.mpr hq)]
  have hvp : validateProductExists s d.productId = .ok p := by
    unfold validateProductExists
    rw [hp]
  rw [hvp]
  have hvs : validateSupplierExists s d.supplierId = .ok sup := by
    unfold validateSupplierExists
    rw [hsup]
  rw [hvs]
  have hvw : validateWarehouseExists s d.warehouseId = .ok w0 := by
    unfold validateWarehouseExists findWarehouse
    rw [hw]
  rw [hvw]
  have hca : canAccommodate s d.warehouseId d.quantityOrdered = .ok true := by
    unfold canAccommodate checkCapacity findWarehouse
    rw [hw]
    simp [Except.map, hcap]
  rw [hca]
  dsimp only
  exact ⟨_, rfl, rfl, rfl, rfl, rfl, rfl⟩

/-- When a PENDING order for the pair already exists, the scan item is
skipped with the pending reason and the store is untouched. -/
theorem processLowStock_pending {s : Store} {row : LowStockRow}
    (hp : hasPendingOrder s row.product.id row.warehouse.id = true) :
    processLowStock s row = (s, Sum.inr (pendingSkip row)) := by
  unfold processLowStock
  rw [if_pos hp]
  rfl

/-- One scan iteration never mutates products, suppliers, warehouses or
stocks; it can only append purchase orders. -/
theorem processLowStock_frame (s : Store) (row : LowStockRow) :
    (processLowStock s row).1.products = s.products ∧
    (processLowStock s row).1.suppliers = s.suppliers ∧
    (processLowStock s row).1.warehouses = s.warehouses ∧
    (processLowStock s row).1.stocks = s.stocks ∧
    (processLowStock s row).1.now = s.now ∧
    ∃ tail, (processLowStock s row).1.orders = s.orders ++ tail := by
  unfold processLowStock
  by_cases hp : hasPendingOrder s row.product.id row.warehouse.id = true
  · rw [if_pos hp]
    exact ⟨rfl, rfl, rfl, rfl, rfl, [], by simp⟩
  rw [if_neg hp]
  dsimp only
  by_cases hc : row.warehouse.capacity - row.warehouse.currentOccupancy ≤ 0
  · rw [if_pos hc]
    exact ⟨rfl, rfl, rfl, rfl, rfl, [], by simp⟩
  rw [if_neg hc]
  by_cases hsmall : 10 * (if row.product.reorderThreshold +
        intCeilDiv (2 * row.product.reorderThreshold) 10 - row.stock.quantity >
        row.warehouse.capacity - row.warehouse.currentOccupancy then
        row.warehouse.capacity - row.warehouse.currentOccupancy
      else row.product.reorderThreshold +
        intCeilDiv (2 * row.product.reorderThreshold) 10 - row.stock.quantity) <
      row.product.reorderThreshold
  · rw [if_pos hsmall]
    exact ⟨rfl, rfl, rfl, rfl, rfl, [], by simp⟩
  rw [if_neg hsmall]
  split
  next s1 po heq =>
      obtain ⟨_, _, _, _, _, _, _, _, _, _, hs1⟩ := createPurchaseOrder_ok heq
      subst hs1
      exact ⟨rfl, rfl, rfl, rfl, rfl, [po], rfl⟩
  next e heq =>
      exact ⟨rfl, rfl, rfl, rfl, rfl, [], by simp⟩

/-- A scan iteration that produced an order produced it for the row's own
(product, warehouse) pair. -/
theorem processLowStock_inl_ids {s s' : Store} {row : LowStockRow} {info : OrderInfo}
    (h : processLowStock s row = (s', Sum.inl info)) :
    info.productId = row.product.id ∧ info.warehouseId = row.warehouse.id := by
  unfold processLowStock at h
  by_cases hp : hasPendingOrder s row.product.id row.warehouse.id = true
  · rw [if_pos hp] at h
    simp at h
  rw [if_neg hp] at h
  dsimp only at h
  by_cases hc : row.warehouse.capacity - row.warehouse.currentOccupancy ≤ 0
  · rw [if_pos hc] at h
    simp at h
  rw [if_neg hc] at h
  by_cases hsmall : 10 * (if row.product.reorderThreshold +
        intCeilDiv (2 * row.product.reorderThreshold) 10 - row.stock.quantity >
        row.warehouse.capacity - row.warehouse.currentOccupancy then
        row.warehouse.capacity - row.warehouse.currentOccupancy
      else row.product.reorderThreshold +
        intCeilDiv (2 * row.product.reorderThreshold) 10 - row.stock.quantity) <
      row.product.reorderThreshold
  · rw [if_pos hsmall] at h
    simp at h
  rw [if_neg hsmall] at h
  split at h
  next s1 po heq =>
      rw [Prod.mk.injEq] at h
      obtain ⟨-, hinfo⟩ := h
      have hinfo2 := Sum.inl.inj hinfo
      rw [← hinfo2]
      exact ⟨rfl, rfl⟩
  next e heq =>
      simp at h

/-- Appending orders can only keep an order pending. -/
theorem hasPendingOrder_mono {s s' : Store} {pid wid : String}
    (h : ∃ tail, s'.orders = s.orders ++ tail)
    (hp : hasPendingOrder s pid wid = true) : hasPendingOrder s' pid wid = true := by
  obtain ⟨tail, htail⟩ := h
  unfold hasPendingOrder at hp ⊢
  rw [htail, List.any_append, hp]
  rfl

theorem findProduct_some {s : Store} {id : String} {p : Product}
    (h : findProduct s id = some p) : p ∈ s.products ∧ p.id = id := by
  unfold findProduct at h
  have h1 := List.mem_of_find?_eq_some h
  have h2 := List.find?_some h
  simp at h2
  exact ⟨h1, h2⟩

theorem findSupplier_some {s : Store} {id : String} {p : Supplier}
    (h : findSupplier s id = some p) : p ∈ s.suppliers ∧ p.id = id := by
  unfold findSupplier at h
  have h1 := List.mem_of_find?_eq_some h
  have h2 := List.find?_some h
  simp at h2
  exact ⟨h1, h2⟩

/-- Classification of one scan iteration, processed against a live store
`t` that agrees with the scanned store `s` on products, suppliers and
warehouses (during a scan `t` differs from `s` only by appended orders):
either an order is created — for the row's own warehouse, with a quantity
between 1 and the warehouse's available capacity as read at scan time — or
the row is skipped with one of the three scan reasons. In particular the
`createPurchaseOrder` call never fails for such rows when all reorder
thresholds are non-negative. -/
theorem processLowStock_outcome (s t : Store) (row : LowStockRow)
    (hps : t.products = s.products) (hss : t.suppliers = s.suppliers)
    (hws : t.warehouses = s.warehouses)
    (hrow : row ∈ findStocksBelowThreshold s)
    (hth : 0 ≤ row.product.reorderThreshold) :
    (∃ info, (processLowStock t row).2 = Sum.inl info ∧
       info.warehouseId = row.warehouse.id ∧
       1 ≤ info.quantityOrdered ∧
       info.quantityOrdered ≤ row.warehouse.capacity - row.warehouse.currentOccupancy) ∨
    (processLowStock t row).2 = Sum.inr (pendingSkip row) ∨
    (processLowStock t row).2 = Sum.inr (fullCapacitySkip row) ∨
    (processLowStock t row).2 = Sum.inr (insufficientSkip row
       (row.warehouse.capacity - row.warehouse.currentOccupancy)) := by
  obtain ⟨hmem, hfp, hfs, hfw, hlt, hact1, hact2, hact3⟩ :=
    mem_findStocksBelowThreshold hrow
  have hpid : row.product.id = row.stock.productId := (findProduct_some hfp).2
  have hwid : row.warehouse.id = row.stock.warehouseId := by
    unfold findWarehouse at hfw
    exact (findWarehouseL_some hfw).2
  unfold processLowStock
  by_cases hp : hasPendingOrder t row.product.id row.warehouse.id = true
  · rw [if_pos hp]
    right; left; rfl
  rw [if_neg hp]
  dsimp only
  by_cases hc : row.warehouse.capacity - row.warehouse.currentOccupancy ≤ 0
  · rw [if_pos hc]
    right; right; left; rfl
  rw [if_neg hc]
  by_cases hsmall : 10 * (if row.product.reorderThreshold +
        intCeilDiv (2 * row.product.reorderThreshold) 10 - row.stock.quantity >
        row.warehouse.capacity - row.warehouse.currentOccupancy then
        row.warehouse.capacity - row.warehouse.currentOccupancy
      else row.product.reorderThreshold +
        intCeilDiv (2 * row.product.reorderThreshold) 10 - row.stock.quantity) <
      row.product.reorderThreshold
  · rw [if_pos hsmall]
    right; right; right; rfl
  rw [if_neg hsmall]
  have hceil : 0 ≤ intCeilDiv (2 * row.product.reorderThreshold) 10 := by
    unfold intCeilDiv
    omega
  have hq1 : 1 ≤ (if row.product.reorderThreshold +
        intCeilDiv (2 * row.product.reorderThreshold) 10 - row.stock.quantity >
        row.warehouse.capacity - row.warehouse.currentOccupancy then
        row.warehouse.capacity - row.warehouse.currentOccupancy
      else row.product.reorderThreshold +
        intCeilDiv (2 * row.product.reorderThreshold) 10 - row.stock.quantity) := by
    by_cases hclamp : row.product.reorderThreshold +
        intCeilDiv (2 * row.product.reorderThreshold) 10 - row.stock.quantity >
        row.warehouse.capacity - row.warehouse.currentOccupancy
    · rw [if_pos hclamp]; omega
    · rw [if_neg hclamp]; omega
  have hle : (if row.product.reorderThreshold +
        intCeilDiv (2 * row.product.reorderThreshold) 10 - row.stock.quantity >
        row.warehouse.capacity - row.warehouse.currentOccupancy then
        row.warehouse.capacity - row.warehouse.currentOccupancy
      else row.product.reorderThreshold +
        intCeilDiv (2 * row.product.reorderThreshold) 10 - row.stock.quantity)
      ≤ row.warehouse.capacity - row.warehouse.currentOccupancy := by
    by_cases hclamp : row.product.reorderThreshold +
        intCeilDiv (2 * row.product.reorderThreshold) 10 - row.stock.quantity >
        row.warehouse.capacity - row.warehouse.currentOccupancy
    · rw [if_pos hclamp]
    · rw [if_neg hclamp]; omega
  have hfp' : findProduct t row.product.id = some row.product := by
    unfold findProduct
    rw [hps]
    rw [hpid]
    exact hfp
  have hfs' : findSupplier t row.product.defaultSupplierId = some row.defaultSupplier := by
    unfold findSupplier
    rw [hss]
    exact hfs
  have hfw' : findWarehouseL t.warehouses row.warehouse.id = some row.warehouse := by
    rw [hws, hwid]
    unfold findWarehouse at hfw
    exact hfw
  obtain ⟨po, hcre, -⟩ := @createPurchaseOrder_succeeds t
    ⟨row.product.id, row.product.defaultSupplierId, row.warehouse.id,
      (if row.product.reorderThreshold +
          intCeilDiv (2 * row.product.reorderThreshold) 10 - row.stock.quantity >
          row.warehouse.capacity - row.warehouse.currentOccupancy then
          row.warehouse.capacity - row.warehouse.currentOccupancy
        else row.product.reorderThreshold +
          intCeilDiv (2 * row.product.reorderThreshold) 10 - row.stock.quantity),
      some t.now, some (t.now + 3), none,
      some "Auto-generated order - stock below threshold"⟩
    row.product row.defaultSupplier row.warehouse
    (lt_of_lt_of_le one_pos hq1) hfp' hfs' hfw' hle
  split
  next s1 po' heq =>
      left
      exact ⟨_, rfl, rfl, hq1, hle⟩
  next e heq =>
      rw [hcre] at heq
      simp at heq

/-- C2: whenever the reorder scan creates an order for a row, the quantity
is computed as `targetQuantity - currentQuantity` clamped down to the
warehouse's available capacity, where `targetQuantity = reorderThreshold +
⌈reorderThreshold * 0.2⌉` (exact arithmetic), and the created PurchaseOrder
carries exactly that quantity. -/
theorem C2_reorder_quantity (s s' : Store) (row : LowStockRow) (info : OrderInfo)
    (h : processLowStock s row = (s', Sum.inl info)) :
    info.quantityOrdered =
      (if row.product.reorderThreshold +
          Int.ceil ((row.product.reorderThreshold : ℚ) * (2 / 10)) -
          row.stock.quantity >
          row.warehouse.capacity - row.warehouse.currentOccupancy then
        row.warehouse.capacity - row.warehouse.currentOccupancy
      else row.product.reorderThreshold +
        Int.ceil ((row.product.reorderThreshold : ℚ) * (2 / 10)) -
        row.stock.quantity) ∧
    ∃ po, s'.orders = s.orders ++ [po] ∧
      po.quantityOrdered = info.quantityOrdered := by
  rw [← buffer_eq_ceil]
  unfold processLowStock at h
  by_cases hp : hasPendingOrder s row.product.id row.warehouse.id = true
  · rw [if_pos hp] at h
    simp at h
  rw [if_neg hp] at h
  dsimp only at h
  by_cases hc : row.warehouse.capacity - row.warehouse.currentOccupancy ≤ 0
  · rw [if_pos hc] at h
    simp at h
  rw [if_neg hc] at h
  by_cases hsmall : 10 * (if row.product.reorderThreshold +
        intCeilDiv (2 * row.product.reorderThreshold) 10 - row.stock.quantity >
        row.warehouse.capacity - row.warehouse.currentOccupancy then
        row.warehouse.capacity - row.warehouse.currentOccupancy
      else row.product.reorderThreshold +
        intCeilDiv (2 * row.product.reorderThreshold) 10 - row.stock.quantity) <
      row.product.reorderThreshold
  · rw [if_pos hsmall] at h
    simp at h
  rw [if_neg hsmall] at h
  split at h
  next s1 po heq =>
      rw [Prod.mk.injEq] at h
      obtain ⟨hs1, hinfo⟩ := h
      have hinfo2 := Sum.inl.inj hinfo
      obtain ⟨hq, -, -, -, -, -, -, -, hpoq, -, hs1'⟩ := createPurchaseOrder_ok heq
      subst hs1
      subst hs1'
      refine ⟨by rw [← hinfo2], ⟨po, by simp, ?_⟩⟩
      rw [← hinfo2, hpoq]
  next e heq =>
      simp at h

/-- For an eligible row with no pending order, positive available capacity
and a clamped quantity at or above the 10% floor, the scan creates an
order for exactly the clamped quantity. -/
theorem processLowStock_creates (s : Store) (row : LowStockRow)
    (hrow : row ∈ findStocksBelowThreshold s)
    (hth : 0 ≤ row.product.reorderThreshold)
    (hpending : hasPendingOrder s row.product.id row.warehouse.id = false)
    (havail : 0 < row.warehouse.capacity - row.warehouse.currentOccupancy)
    (hsmall : ¬ 10 * (if row.product.reorderThreshold +
        intCeilDiv (2 * row.product.reorderThreshold) 10 - row.stock.quantity >
        row.warehouse.capacity - row.warehouse.currentOccupancy then
        row.warehouse.capacity - row.warehouse.currentOccupancy
      else row.product.reorderThreshold +
        intCeilDiv (2 * row.product.reorderThreshold) 10 - row.stock.quantity) <
      row.product.reorderThreshold) :
    ∃ s1 info, processLowStock s row = (s1, Sum.inl info) ∧
      info.quantityOrdered =
        (if row.product.reorderThreshold +
            intCeilDiv (2 * row.product.reorderThreshold) 10 - row.stock.quantity >
            row.warehouse.capacity - row.warehouse.currentOccupancy then
          row.warehouse.capacity - row.warehouse.currentOccupancy
        else row.product.reorderThreshold +
          intCeilDiv (2 * row.product.reorderThreshold) 10 - row.stock.quantity) := by
  obtain ⟨hmem, hfp, hfs, hfw, hlt, hact1, hact2, hact3⟩ :=
    mem_findStocksBelowThreshold hrow
  have hpid : row.product.id = row.stock.productId := (findProduct_some hfp).2
  have hwid : row.warehouse.id = row.stock.warehouseId := by
    unfold findWarehouse at hfw
    exact (findWarehouseL_some hfw).2
  have hceil : 0 ≤ intCeilDiv (2 * row.product.reorderThreshold) 10 := by
    unfold intCeilDiv
    omega
  have hq1 : 1 ≤ (if row.product.reorderThreshold +
        intCeilDiv (2 * row.product.reorderThreshold) 10 - row.stock.quantity >
        row.warehouse.capacity - row.warehouse.currentOccupancy then
        row.warehouse.capacity - row.warehouse.currentOccupancy
      else row.product.reorderThreshold +
        intCeilDiv (2 * row.product.reorderThreshold) 10 - row.stock.quantity) := by
    by_cases hclamp : row.product.reorderThreshold +
        intCeilDiv (2 * row.product.reorderThreshold) 10 - row.stock.quantity >
        row.warehouse.capacity - row.warehouse.currentOccupancy
    · rw [if_pos hclamp]; omega
    · rw [if_neg hclamp]; omega
  have hle : (if row.product.reorderThreshold +
        intCeilDiv (2 * row.product.reorderThreshold) 10 - row.stock.quantity >
        row.warehouse.capacity - row.warehouse.currentOccupancy then
        row.warehouse.capacity - row.warehouse.currentOccupancy
      else row.product.reorderThreshold +
        intCeilDiv (2 * row.product.reorderThreshold) 10 - row.stock.quantity)
      ≤ row.warehouse.capacity - row.warehouse.currentOccupancy := by
    by_cases hclamp : row.product.reorderThreshold +
        intCeilDiv (2 * row.product.reorderThreshold) 10 - row.stock.quantity >
        row.warehouse.capacity - row.warehouse.currentOccupancy
    · rw [if_pos hclamp]
    · rw [if_neg hclamp]; omega
  have hfp' : findProduct s row.product.id = some row.product := by
    rw [hpid]; exact hfp
  have hfw' : findWarehouseL s.warehouses row.warehouse.id = some row.warehouse := by
    rw [hwid]
    unfold findWarehouse at hfw
    exact hfw
  obtain ⟨po, hcre, -⟩ := @createPurchaseOrder_succeeds s
    ⟨row.product.id, row.product.defaultSupplierId, row.warehouse.id,
      (if row.product.reorderThreshold +
          intCeilDiv (2 * row.product.reorderThreshold) 10 - row.stock.quantity >
          row.warehouse.capacity - row.warehouse.currentOccupancy then
          row.warehouse.capacity - row.warehouse.currentOccupancy
        else row.product.reorderThreshold +
          intCeilDiv (2 * row.product.reorderThreshold) 10 - row.stock.quantity),
      some s.now, some (s.now + 3), none,
      some "Auto-generated order - stock below threshold"⟩
    row.product row.defaultSupplier row.warehouse
    (lt_of_lt_of_le one_pos hq1) hfp' hfs hfw' hle
  unfold processLowStock
  rw [if_neg (by simp [hpending]), if_neg (not_le.mpr havail)]
  dsimp only
  rw [if_neg hsmall]
  rw [hcre]
  exact ⟨_, _, rfl, rfl⟩

def c2Stock : StockRecord :=
  { productId := "p1", warehouseId := "w1", quantity := 5, lastRestocked := 0 }

def c2Product : Product :=
  { id := "p1", name := "Widget", reorderThreshold := 20,
    defaultSupplierId := "sup1", isActive := true }

def c2Supplier : Supplier := { id := "sup1", name := "Acme", isActive := true }

def c2Warehouse : Warehouse :=
  { id := "w1", name := "Main", location := "HQ", capacity := 100,
    currentOccupancy := 0, isActive := true }

/-- Store of the spec's first reorder example: quantity 5, threshold 20,
available capacity 100. -/
def c2Store : Store :=
  { warehouses := [c2Warehouse], products := [c2Product], suppliers := [c2Supplier],
    stocks := [c2Stock], orders := [], now := 0, nextOrderId := 0 }

def c2Row : LowStockRow :=
  { stock := c2Stock, product := c2Product, defaultSupplier := c2Supplier,
    warehouse := c2Warehouse }

def c2Info : OrderInfo :=
  { productId := "p1", productName := "Widget", warehouseId := "w1",
    warehouseName := "Main", currentStock := 5, threshold := 20,
    quantityOrdered := 19, supplierId := "sup1", supplierName := "Acme",
    orderId := 0 }

/-- C2 witness: at quantity 5, threshold 20, available capacity 100, the
scan step creates a purchase order for exactly 19 = 20 + ⌈4⌉ − 5 units. -/
theorem C2_witness :
    c2Info.quantityOrdered =
      (if c2Row.product.reorderThreshold +
          Int.ceil ((c2Row.product.reorderThreshold : ℚ) * (2 / 10)) -
          c2Row.stock.quantity >
          c2Row.warehouse.capacity - c2Row.warehouse.currentOccupancy then
        c2Row.warehouse.capacity - c2Row.warehouse.currentOccupancy
      else c2Row.product.reorderThreshold +
        Int.ceil ((c2Row.product.reorderThreshold : ℚ) * (2 / 10)) -
        c2Row.stock.quantity) ∧
    ∃ po, (processLowStock c2Store c2Row).1.orders = c2Store.orders ++ [po] ∧
      po.quantityOrdered = c2Info.quantityOrdered :=
  C2_reorder_quantity c2Store (processLowStock c2Store c2Row).1 c2Row c2Info (by decide)

/-- C3: for an eligible low-stock row (non-negative threshold, no pending
order, strictly positive available capacity) the scan produces the
"Insufficient capacity (only N available)" skip exactly when the clamped
quantityToOrder is strictly below `reorderThreshold * 0.1`, compared in
exact rational arithmetic with strict `<`. -/
theorem C3_insufficient_capacity_boundary (s : Store) (row : LowStockRow)
    (hrow : row ∈ findStocksBelowThreshold s)
    (hth : 0 ≤ row.product.reorderThreshold)
    (hpending : hasPendingOrder s row.product.id row.warehouse.id = false)
    (havail : 0 < row.warehouse.capacity - row.warehouse.currentOccupancy) :
    (processLowStock s row).2 = Sum.inr (insufficientSkip row
        (row.warehouse.capacity - row.warehouse.currentOccupancy))
      ↔ ((((if row.product.reorderThreshold +
            intCeilDiv (2 * row.product.reorderThreshold) 10 - row.stock.quantity >
            row.warehouse.capacity - row.warehouse.currentOccupancy then
          row.warehouse.capacity - row.warehouse.currentOccupancy
        else row.product.reorderThreshold +
          intCeilDiv (2 * row.product.reorderThreshold) 10 - row.stock.quantity : Int)) : ℚ) <
        (row.product.reorderThreshold : ℚ) * (1 / 10)) := by
  rw [← ltTenth_iff]
  by_cases hsmall : 10 * (if row.product.reorderThreshold +
        intCeilDiv (2 * row.product.reorderThreshold) 10 - row.stock.quantity >
        row.warehouse.capacity - row.warehouse.currentOccupancy then
        row.warehouse.capacity - row.warehouse.currentOccupancy
      else row.product.reorderThreshold +
        intCeilDiv (2 * row.product.reorderThreshold) 10 - row.stock.quantity) <
      row.product.reorderThreshold
  · refine iff_of_true ?_ hsmall
    unfold processLowStock
    rw [if_neg (by simp [hpending]), if_neg (not_le.mpr havail)]
    dsimp only
    rw [if_pos hsmall]
    rfl
  · refine iff_of_false ?_ hsmall
    obtain ⟨s1, info, hps, -⟩ :=
      processLowStock_creates s row hrow hth hpending havail hsmall
    rw [hps]
    simp

def c3Warehouse : Warehouse :=
  { id := "w1", name := "Main", location := "HQ", capacity := 100,
    currentOccupancy := 98, isActive := true }

/-- Store of the spec's boundary example: quantity 5, threshold 20,
available capacity 2. -/
def c3Store : Store :=
  { warehouses := [c3Warehouse], products := [c2Product], suppliers := [c2Supplier],
    stocks := [c2Stock], orders := [], now := 0, nextOrderId := 0 }

def c3Row : LowStockRow :=
  { stock := c2Stock, product := c2Product, defaultSupplier := c2Supplier,
    warehouse := c3Warehouse }

def c3Info : OrderInfo :=
  { productId := "p1", productName := "Widget", warehouseId := "w1",
    warehouseName := "Main", currentStock := 5, threshold := 20,
    quantityOrdered := 2, supplierId := "sup1", supplierName := "Acme",
    orderId := 0 }

/-- C3 witness: at quantity 5, threshold 20, available capacity 2, the
clamped quantity is 2, the comparison `2 < 20 * 0.1 = 2` is false (boundary
is strict `<`), so the step does not produce the insufficient-capacity skip
— it creates an order for exactly 2 units. -/
theorem C3_witness :
    ¬ (processLowStock c3Store c3Row).2 = Sum.inr (insufficientSkip c3Row
        (c3Row.warehouse.capacity - c3Row.warehouse.currentOccupancy)) ∧
    ¬ ((((if c3Row.product.reorderThreshold +
            intCeilDiv (2 * c3Row.product.reorderThreshold) 10 - c3Row.stock.quantity >
            c3Row.warehouse.capacity - c3Row.warehouse.currentOccupancy then
          c3Row.warehouse.capacity - c3Row.warehouse.currentOccupancy
        else c3Row.product.reorderThreshold +
          intCeilDiv (2 * c3Row.product.reorderThreshold) 10 - c3Row.stock.quantity : Int)) : ℚ) <
        (c3Row.product.reorderThreshold : ℚ) * (1 / 10)) ∧
    (∃ info, (processLowStock c3Store c3Row).2 = Sum.inl info ∧
      info.quantityOrdered = 2) := by
  have hiff := C3_insufficient_capacity_boundary c3Store c3Row
    (by decide) (by decide) (by decide) (by decide)
  have hnot : ¬ (processLowStock c3Store c3Row).2 = Sum.inr (insufficientSkip c3Row
      (c3Row.warehouse.capacity - c3Row.warehouse.currentOccupancy)) := by decide
  exact ⟨hnot, fun hr => hnot (hiff.mpr hr), ⟨c3Info, by decide, by decide⟩⟩

/-- Scan-loop form of C4: with a PENDING order for (pid, wid) live in the
store, no order for that pair is created by the remaining iterations, and
every remaining under-threshold row for the pair contributes a
pending-order skip entry. -/
theorem C4_loop (pid wid : String) :
    ∀ (rows : List LowStockRow) (t : Store),
      hasPendingOrder t pid wid = true →
      (∀ info ∈ (checkAndReorderLoop t rows).2.1,
         ¬(info.productId = pid ∧ info.warehouseId = wid)) ∧
      (∀ row ∈ rows, row.product.id = pid → row.warehouse.id = wid →
         pendingSkip row ∈ (checkAndReorderLoop t rows).2.2) := by
  intro rows
  induction rows with
  | nil =>
      intro t hp
      exact ⟨by intro info h; simp [checkAndReorderLoop] at h,
             by intro row h; simp at h⟩
  | cons row rest ih =>
      intro t hp
      have hframe := processLowStock_frame t row
      unfold checkAndReorderLoop
      cases hpr : processLowStock t row with
      | mk t1 out =>
          rw [hpr] at hframe
          have hp1 : hasPendingOrder t1 pid wid = true :=
            hasPendingOrder_mono hframe.2.2.2.2.2 hp
          obtain ⟨ih1, ih2⟩ := ih t1 hp1
          cases out with
          | inl info =>
              dsimp only
              constructor
              · intro i hi
                rcases List.mem_cons.1 hi with h1 | h1
                · subst h1
                  obtain ⟨hidp, hidw⟩ := processLowStock_inl_ids hpr
                  rintro ⟨hpp, hww⟩
                  have hpend : hasPendingOrder t row.product.id
                      row.warehouse.id = true := by
                    rw [hidp] at hpp
                    rw [hidw] at hww
                    rw [hpp, hww]
                    exact hp
                  have hcontra := processLowStock_pending hpend
                  rw [hcontra] at hpr
                  rw [Prod.mk.injEq] at hpr
                  exact Sum.noConfusion hpr.2
                · exact ih1 i h1
              · intro row' hrow' hpp hww
                rcases List.mem_cons.1 hrow' with h1 | h1
                · subst h1
                  have hpend : hasPendingOrder t row'.product.id
                      row'.warehouse.id = true := by
                    rw [hpp, hww]
                    exact hp
                  have hcontra := processLowStock_pending hpend
                  rw [hcontra] at hpr
                  rw [Prod.mk.injEq] at hpr
                  exact absurd hpr.2 (by simp)
                · exact ih2 row' h1 hpp hww
          | inr k =>
              dsimp only
              constructor
              · intro i hi
                exact ih1 i hi
              · intro row' hrow' hpp hww
                rcases List.mem_cons.1 hrow' with h1 | h1
                · subst h1
                  have hpend : hasPendingOrder t row'.product.id
                      row'.warehouse.id = true := by
                    rw [hpp, hww]
                    exact hp
                  have hcontra := processLowStock_pending hpend
                  rw [hcontra] at hpr
                  rw [Prod.mk.injEq] at hpr
                  have hk := Sum.inr.inj hpr.2
                  rw [← hk]
                  exact List.mem_cons_self _ _
                · exact List.mem_cons_of_mem _ (ih2 row' h1 hpp hww)

/-- C4: when a PENDING purchase order already exists for (pid, wid), a
reorder scan creates no order for that pair, and every under-threshold row
for the pair is added to the skipped list with the pending-order reason. -/
theorem C4_pending_skip (s : Store) (pid wid : String)
    (hp : hasPendingOrder s pid wid = true) :
    (∀ info ∈ (checkAndReorder s).2.orders,
       ¬(info.productId = pid ∧ info.warehouseId = wid)) ∧
    (∀ row ∈ findStocksBelowThreshold s, row.product.id = pid →
       row.warehouse.id = wid →
       pendingSkip row ∈ (checkAndReorder s).2.skipped) := by
  unfold checkAndReorder
  dsimp only
  obtain ⟨h1, h2⟩ := C4_loop pid wid (findStocksBelowThreshold s) s hp
  cases hl : checkAndReorderLoop s (findStocksBelowThreshold s) with
  | mk t r =>
      rw [hl] at h1 h2
      cases r with
      | mk os ks => exact ⟨h1, h2⟩

/-- The pending order blocking reordering of p1 at w1 in the C4 witness. -/
def c4Order : PurchaseOrder :=
  { id := 7, productId := "p1", supplierId := "sup1", warehouseId := "w1",
    quantityOrdered := 9, orderDate := 0, expectedArrivalDate := 3,
    actualArrivalDate := none, notes := none, status := .PENDING }

def c4Store : Store := { c2Store with orders := [c4Order], nextOrderId := 8 }

/-- C4 witness: with a PENDING order for (p1, w1) in the store, the scan
over the single low-stock row creates nothing for the pair and emits the
pending-order skip entry for it. -/
theorem C4_witness :
    (∀ info ∈ (checkAndReorder c4Store).2.orders,
       ¬(info.productId = "p1" ∧ info.warehouseId = "w1")) ∧
    (∀ row ∈ findStocksBelowThreshold c4Store, row.product.id = "p1" →
       row.warehouse.id = "w1" →
       pendingSkip row ∈ (checkAndReorder c4Store).2.skipped) :=
  C4_pending_skip c4Store "p1" "w1" (by decide)

/-- Scan-loop form of C9. -/
theorem C9_loop (s : Store) (hth : ∀ p ∈ s.products, 0 ≤ p.reorderThreshold) :
    ∀ (rows : List LowStockRow) (t : Store),
      t.products = s.products → t.suppliers = s.suppliers →
      t.warehouses = s.warehouses →
      (∀ row ∈ rows, row ∈ findStocksBelowThreshold s) →
      (∀ info ∈ (checkAndReorderLoop t rows).2.1,
         1 ≤ info.quantityOrdered ∧
         ∃ w, findWarehouse s info.warehouseId = some w ∧
           info.quantityOrdered ≤ w.capacity - w.currentOccupancy) ∧
      (∀ k ∈ (checkAndReorderLoop t rows).2.2,
         ∃ row ∈ findStocksBelowThreshold s,
           k = pendingSkip row ∨ k = fullCapacitySkip row ∨
           k = insufficientSkip row
             (row.warehouse.capacity - row.warehouse.currentOccupancy)) := by
  intro rows
  induction rows with
  | nil =>
      intro t _ _ _ _
      exact ⟨by intro info h; simp [checkAndReorderLoop] at h,
             by intro k h; simp [checkAndReorderLoop] at h⟩
  | cons row rest ih =>
      intro t hps hss hws hmem
      have hrow : row ∈ findStocksBelowThreshold s := hmem row (by simp)
      have hrowth : 0 ≤ row.product.reorderThreshold := by
        have hp := (mem_findStocksBelowThreshold hrow).2.1
        exact hth row.product (findProduct_some hp).1
      have hout := processLowStock_outcome s t row hps hss hws hrow hrowth
      have hframe := processLowStock_frame t row
      unfold checkAndReorderLoop
      cases hpr : processLowStock t row with
      | mk t1 out =>
          rw [hpr] at hout hframe
          have ih1 := ih t1 (hframe.1.trans hps) (hframe.2.1.trans hss)
            (hframe.2.2.1.trans hws) (fun r hr => hmem r (List.mem_cons_of_mem _ hr))
          cases out with
          | inl info =>
              dsimp only
              constructor
              · intro i hi
                rcases List.mem_cons.1 hi with h1 | h1
                · subst h1
                  rcases hout with ⟨info2, hinfo2, hwid2, hq2, hle2⟩ | h | h | h
                  · have : info2 = i := (Sum.inl.inj hinfo2).symm
                    subst this
                    refine ⟨hq2, row.warehouse, ?_, ?_⟩
                    · rw [hwid2]
                      have hfw := (mem_findStocksBelowThreshold hrow).2.2.2.1
                      have hwid : row.warehouse.id = row.stock.warehouseId := by
                        unfold findWarehouse at hfw
                        exact (findWarehouseL_some hfw).2
                      rw [hwid]
                      exact hfw
                    · exact hle2
                  all_goals simp at h
                · exact ih1.1 i h1
              · intro k hk
                exact ih1.2 k hk
          | inr k0 =>
              dsimp only
              constructor
              · intro i hi
                exact ih1.1 i hi
              · intro k hk
                rcases List.mem_cons.1 hk with h1 | h1
                · subst h1
                  rcases hout with ⟨info2, hinfo2, -⟩ | h | h | h
                  · simp at hinfo2
                  all_goals
                    exact ⟨row, hrow, by
                      have := Sum.inr.inj h
                      tauto⟩
                · exact ih1.2 k h1

/-- C9: over an otherwise unchanging store in which every product's
reorderThreshold is non-negative (enforced by product create/update
validation), every purchase order created by a single reorder scan has
`1 ≤ quantityOrdered` and `quantityOrdered` no greater than the
warehouse's available capacity as read during the scan; and every skipped
entry is one of the three scan skips (pending order, full capacity,
insufficient capacity) — never a failure of the quantity-positivity or
capacity checks inside purchase-order Create. -/
theorem C9_scan_orders_fit (s : Store)
    (hth : ∀ p ∈ s.products, 0 ≤ p.reorderThreshold) :
    (∀ info ∈ (checkAndReorder s).2.orders,
       1 ≤ info.quantityOrdered ∧
       ∃ w, findWarehouse s info.warehouseId = some w ∧
         info.quantityOrdered ≤ w.capacity - w.currentOccupancy) ∧
    (∀ k ∈ (checkAndReorder s).2.skipped,
       ∃ row ∈ findStocksBelowThreshold s,
         k = pendingSkip row ∨ k = fullCapacitySkip row ∨
         k = insufficientSkip row
           (row.warehouse.capacity - row.warehouse.currentOccupancy)) := by
  unfold checkAndReorder
  dsimp only
  obtain ⟨h1, h2⟩ := C9_loop s hth (findStocksBelowThreshold s) s rfl rfl rfl
    (fun r hr => hr)
  cases hl : checkAndReorderLoop s (findStocksBelowThreshold s) with
  | mk t r =>
      rw [hl] at h1 h2
      cases r with
      | mk os ks => exact ⟨h1, h2⟩

/-- C9 witness: on the 5/20/100 store the scan's single created order (19
units) fits within the warehouse's 100 available units, and nothing is
skipped for a Create failure. -/
theorem C9_witness :
    (∀ info ∈ (checkAndReorder c2Store).2.orders,
       1 ≤ info.quantityOrdered ∧
       ∃ w, findWarehouse c2Store info.warehouseId = some w ∧
         info.quantityOrdered ≤ w.capacity - w.currentOccupancy) ∧
    (∀ k ∈ (checkAndReorder c2Store).2.skipped,
       ∃ row ∈ findStocksBelowThreshold c2Store,
         k = pendingSkip row ∨ k = fullCapacitySkip row ∨
         k = insufficientSkip row
           (row.warehouse.capacity - row.warehouse.currentOccupancy)) :=
  C9_scan_orders_fit c2Store (by decide)

/-- Overwrite every product's and warehouse's isActive flag (modelling the
soft-delete state of the referenced entities). -/
def setActiveFlags (bp bw : Bool) (s : Store) : Store :=
  { s with
    products := s.products.map (fun p => { p with isActive := bp }),
    warehouses := s.warehouses.map (fun w => { w with isActive := bw }) }

theorem findProduct_setActiveFlags (bp bw : Bool) (s : Store) (id : String) :
    findProduct (setActiveFlags bp bw s) id =
      (findProduct s id).map (fun p => { p with isActive := bp }) := by
  unfold findProduct setActiveFlags
  dsimp only
  rw [List.find?_map]
  rfl

theorem findWarehouse_setActiveFlags (bp bw : Bool) (s : Store) (id : String) :
    findWarehouse (setActiveFlags bp bw s) id =
      (findWarehouse s id).map (fun w => { w with isActive := bw }) := by
  unfold findWarehouse findWarehouseL setActiveFlags
  dsimp only
  rw [List.find?_map]
  rfl

theorem findStock_setActiveFlags (bp bw : Bool) (s : Store) (pid wid : String) :
    findStock (setActiveFlags bp bw s) pid wid = findStock s pid wid := rfl

theorem checkCapacity_setActiveFlags (bp bw : Bool) (s : Store) (id : String) :
    checkCapacity (setActiveFlags bp bw s) id = checkCapacity s id := by
  unfold checkCapacity
  rw [findWarehouse_setActiveFlags]
  cases findWarehouse s id <;> rfl

theorem canAccommodate_setActiveFlags (bp bw : Bool) (s : Store) (id : String) (q : Int) :
    canAccommodate (setActiveFlags bp bw s) id q = canAccommodate s id q := by
  unfold canAccommodate
  rw [checkCapacity_setActiveFlags]

theorem validateProductExists_setActiveFlags (bp bw : Bool) (s : Store) (id : String) :
    validateProductExists (setActiveFlags bp bw s) id =
      (validateProductExists s id).map (fun p => { p with isActive := bp }) := by
  unfold validateProductExists
  rw [findProduct_setActiveFlags]
  cases findProduct s id <;> rfl

theorem validateWarehouseExists_setActiveFlags (bp bw : Bool) (s : Store) (id : String) :
    validateWarehouseExists (setActiveFlags bp bw s) id =
      (validateWarehouseExists s id).map (fun w => { w with isActive := bw }) := by
  unfold validateWarehouseExists
  rw [findWarehouse_setActiveFlags]
  cases findWarehouse s id <;> rfl

/-- `updateFirst` commutes with a map that preserves the predicate and
commutes with the update function. -/
theorem updateFirst_map_comm {α : Type} {p : α → Bool} {f g : α → α} {l : List α}
    (hpg : ∀ x, p (g x) = p x) (hcomm : ∀ x, f (g x) = g (f x)) :
    updateFirst p f (l.map g) = (updateFirst p f l).map g := by
  induction l with
  | nil => rfl
  | cons x rest ih =>
      rw [List.map_cons]
      cases hc : p x with
      | true =>
          unfold updateFirst
          rw [if_pos (by rw [hpg x]; exact hc), if_pos hc]
          rw [List.map_cons, hcomm x]
      | false =>
          unfold updateFirst
          rw [if_neg (by rw [hpg x]; simp [hc]), if_neg (by simp [hc])]
          rw [List.map_cons, ih]

/-- `addStock` is insensitive to isActive flags. -/
theorem addStock_setActiveFlags (bp bw : Bool) (s : Store) (d : AddStockData) :
    addStock (setActiveFlags bp bw s) d =
      (addStock s d).map (setActiveFlags bp bw) := by
  unfold addStock
  by_cases hq : d.quantity ≤ 0
  · rw [if_pos hq, if_pos hq]
    rfl
  rw [if_neg hq, if_neg hq]
  rw [validateProductExists_setActiveFlags]
  cases hvp : validateProductExists s d.productId with
  | error e => rfl
  | ok p =>
  dsimp only [Except.map]
  rw [validateWarehouseExists_setActiveFlags]
  cases hvw : validateWarehouseExists s d.warehouseId with
  | error e => rfl
  | ok w =>
  dsimp only [Except.map]
  rw [canAccommodate_setActiveFlags]
  cases hca : canAccommodate s d.warehouseId d.quantity with
  | error e => rfl
  | ok b =>
  cases b with
  | false =>
      rw [checkCapacity_setActiveFlags]
      cases hcc : checkCapacity s d.warehouseId <;> rfl
  | true =>
      rw [findStock_setActiveFlags]
      have hcomm := @updateFirst_map_comm Warehouse
        (fun w => w.id == d.warehouseId)
        (fun w => { w with currentOccupancy := w.currentOccupancy + d.quantity })
        (fun w => { w with isActive := bw })
        s.warehouses (fun x => rfl) (fun x => rfl)
      cases hfs : findStock s d.productId d.warehouseId with
      | some r =>
          show Except.ok _ = Except.ok _
          rw [show (setActiveFlags bp bw s).warehouses =
            s.warehouses.map (fun w => { w with isActive := bw }) from rfl]
          unfold updateFirstWarehouse
          rw [hcomm]
          rfl
      | none =>
          show Except.ok _ = Except.ok _
          rw [show (setActiveFlags bp bw s).warehouses =
            s.warehouses.map (fun w => { w with isActive := bw }) from rfl]
          unfold updateFirstWarehouse
          rw [hcomm]
          rfl

/-- `removeStock` is insensitive to isActive flags. -/
theorem removeStock_setActiveFlags (bp bw : Bool) (s : Store) (d : RemoveStockData) :
    removeStock (setActiveFlags bp bw s) d =
      (removeStock s d).map (setActiveFlags bp bw) := by
  unfold removeStock
  by_cases hq : d.quantity ≤ 0
  · rw [if_pos hq, if_pos hq]
    rfl
  rw [if_neg hq, if_neg hq]
  rw [validateProductExists_setActiveFlags]
  cases hvp : validateProductExists s d.productId with
  | error e => rfl
  | ok p =>
  dsimp only [Except.map]
  rw [validateWarehouseExists_setActiveFlags]
  cases hvw : validateWarehouseExists s d.warehouseId with
  | error e => rfl
  | ok w =>
  dsimp only [Except.map]
  rw [findStock_setActiveFlags]
  cases hfs : findStock s d.productId d.warehouseId with
  | none => rfl
  | some r =>
  dsimp only
  by_cases hlt : r.quantity < d.quantity
  · rw [if_pos hlt, if_pos hlt]
  rw [if_neg hlt, if_neg hlt]
  have hcomm := @updateFirst_map_comm Warehouse
    (fun w => w.id == d.warehouseId)
    (fun w => { w with currentOccupancy := w.currentOccupancy - d.quantity })
    (fun w => { w with isActive := bw })
    s.warehouses (fun x => rfl) (fun x => rfl)
  show Except.ok _ = Except.ok _
  rw [show (setActiveFlags bp bw s).warehouses =
    s.warehouses.map (fun w => { w with isActive := bw }) from rfl]
  unfold updateFirstWarehouse
  rw [hcomm]
  rfl

/-- `transferStock` is insensitive to isActive flags. -/
theorem transferStock_setActiveFlags (bp bw : Bool) (s : Store) (d : TransferStockData) :
    transferStock (setActiveFlags bp bw s) d =
      (transferStock s d).map (setActiveFlags bp bw) := by
  unfold transferStock
  by_cases hq : d.quantity ≤ 0
  · rw [if_pos hq, if_pos hq]
    rfl
  rw [if_neg hq, if_neg hq]
  rw [validateProductExists_setActiveFlags]
  cases hvp : validateProductExists s d.productId with
  | error e => rfl
  | ok p =>
  dsimp only [Except.map]
  rw [validateWarehouseExists_setActiveFlags]
  cases hvf : validateWarehouseExists s d.fromWarehouseId with
  | error e => rfl
  | ok wf =>
  dsimp only [Except.map]
  rw [validateWarehouseExists_setActiveFlags]
  cases hvt : validateWarehouseExists s d.toWarehouseId with
  | error e => rfl
  | ok wt =>
  dsimp only [Except.map]
  by_cases hsame : (d.fromWarehouseId == d.toWarehouseId) = true
  · rw [if_pos hsame, if_pos hsame]
  rw [if_neg hsame, if_neg hsame]
  rw [findStock_setActiveFlags]
  cases hfs : findStock s d.productId d.fromWarehouseId with
  | none => rfl
  | some r =>
  dsimp only
  by_cases hlt : r.quantity < d.quantity
  · rw [if_pos hlt, if_pos hlt]
  rw [if_neg hlt, if_neg hlt]
  rw [canAccommodate_setActiveFlags]
  cases hca : canAccommodate s d.toWarehouseId d.quantity with
  | error e => rfl
  | ok b =>
  cases b with
  | false =>
      rw [checkCapacity_setActiveFlags]
      cases hcc : checkCapacity s d.toWarehouseId <;> rfl
  | true =>
      have hcomm1 := @updateFirst_map_comm Warehouse
        (fun w => w.id == d.fromWarehouseId)
        (fun w => { w with currentOccupancy := w.currentOccupancy - d.quantity })
        (fun w => { w with isActive := bw })
        s.warehouses (fun x => rfl) (fun x => rfl)
      show Except.ok _ = Except.ok _
      rw [show (setActiveFlags bp bw s).warehouses =
        s.warehouses.map (fun w => { w with isActive := bw }) from rfl]
      rw [show (setActiveFlags bp bw s).stocks = s.stocks from rfl]
      unfold updateFirstWarehouse
      rw [hcomm1]
      have hcomm2 := @updateFirst_map_comm Warehouse
        (fun w => w.id == d.toWarehouseId)
        (fun w => { w with currentOccupancy := w.currentOccupancy + d.quantity })
        (fun w => { w with isActive := bw })
        (updateFirst (fun w => w.id == d.fromWarehouseId)
          (fun w => { w with currentOccupancy := w.currentOccupancy - d.quantity })
          s.warehouses) (fun x => rfl) (fun x => rfl)
      rw [hcomm2]
      rfl

/-- C8: `AddStock`, `RemoveStock` and `TransferStock` behave identically
whether the referenced products and warehouses are active or soft-deleted:
overwriting every isActive flag commutes with each operation, because the
existence validators check presence only, never isActive. In particular
stock can be added to, removed from, or transferred into an inactive
warehouse or for an inactive product without any error. -/
theorem C8_soft_deleted_ignored (bp bw : Bool) (s : Store) :
    (∀ d : AddStockData, addStock (setActiveFlags bp bw s) d =
        (addStock s d).map (setActiveFlags bp bw)) ∧
    (∀ d : RemoveStockData, removeStock (setActiveFlags bp bw s) d =
        (removeStock s d).map (setActiveFlags bp bw)) ∧
    (∀ d : TransferStockData, transferStock (setActiveFlags bp bw s) d =
        (transferStock s d).map (setActiveFlags bp bw)) :=
  ⟨fun d => addStock_setActiveFlags bp bw s d,
   fun d => removeStock_setActiveFlags bp bw s d,
   fun d => transferStock_setActiveFlags bp bw s d⟩
